import Mathlib

/-!
Shallow embedding of the room-membership and game-session service layer of
the booze backend.  Database tables are modelled as lists of row structures
inside a `DB` state; each service function from `src/services/roomService.js`
(and the game-session half of the same module) is translated into a pure
Lean function that threads the `DB` state explicitly and returns
`Except AppError` for the error paths raised via `AppError` in the source.
`db.query` row destructuring (`const [row] = await db.query(...)`) becomes
`List.find?` with the SQL `WHERE` predicate; `UPDATE ... WHERE id = ?`
becomes `List.map` guarded on the primary key; `INSERT` becomes list append;
`DELETE ... WHERE id = ?` becomes `List.filter`.  Timestamps (`NOW()`) and
generated ids (`uuidv4()`) are passed in as explicit `Nat` arguments.
-/

namespace Booze

/-- A row of the `users` table (the columns the embedded queries touch). -/
structure UserRow where
  uid : Nat
  username : String
  deriving DecidableEq

/-- A row of the `rooms` table. -/
structure RoomRow where
  rid : Nat
  name : String
  rtype : String
  is_locked : Bool
  host_id : Nat
  deriving DecidableEq

/-- A row of the `room_participants` table.  Schema defaults:
`joined_at CURRENT_TIMESTAMP`, `left_at NULL`, `is_active TRUE`. -/
structure RoomParticipantRow where
  pid : Nat
  room_id : Nat
  user_id : Nat
  joined_at : Nat
  left_at : Option Nat
  is_active : Bool
  deriving DecidableEq

/-- A row of the `room_join_requests` table (`status` defaults to
`pending`). -/
structure RoomJoinRequestRow where
  jid : Nat
  room_id : Nat
  user_id : Nat
  status : String
  deriving DecidableEq

/-- A row of the `games` catalog table. -/
structure GameRow where
  gid : Nat
  name : String
  min_players : Nat
  max_players : Nat
  deriving DecidableEq

/-- A row of the `game_sessions` table. -/
structure GameSessionRow where
  sid : Nat
  game_id : Nat
  room_id : Nat
  status : String
  started_at : Nat
  ended_at : Option Nat
  created_by : Nat
  deriving DecidableEq

/-- A row of the `game_participants` table (`score` defaults to `0`,
`left_at` to `NULL`). -/
structure GameParticipantRow where
  gpid : Nat
  game_session_id : Nat
  user_id : Nat
  score : Int
  joined_at : Nat
  left_at : Option Nat
  deriving DecidableEq

/-- The persistent store: the tables the room/game managers read and write. -/
structure DB where
  users : List UserRow
  rooms : List RoomRow
  room_participants : List RoomParticipantRow
  room_join_requests : List RoomJoinRequestRow
  games : List GameRow
  game_sessions : List GameSessionRow
  game_participants : List GameParticipantRow
  deriving DecidableEq

/-- `AppError(message, statusCode)` from `src/utils/errorHandler.js`. -/
structure AppError where
  message : String
  status : Nat
  deriving DecidableEq

/-- `SELECT ... FROM rooms WHERE id = ?` destructured to its first row. -/
def findRoom (db : DB) (roomId : Nat) : Option RoomRow :=
  db.rooms.find? (fun r => r.rid == roomId)

/-- `SELECT id FROM room_join_requests WHERE room_id = ? AND user_id = ?
AND status = accepted`, destructured to its first row. -/
def findAcceptedRequest (db : DB) (roomId userId : Nat) : Option RoomJoinRequestRow :=
  db.room_join_requests.find?
    (fun j => j.room_id == roomId && j.user_id == userId && j.status == "accepted")

/-- `SELECT id FROM room_participants WHERE room_id = ? AND user_id = ?
AND is_active = TRUE`, destructured to its first row. -/
def findActiveParticipant (db : DB) (roomId userId : Nat) : Option RoomParticipantRow :=
  db.room_participants.find?
    (fun p => p.room_id == roomId && p.user_id == userId && p.is_active)

/-- `SELECT id FROM room_participants WHERE room_id = ? AND user_id = ?
AND is_active = FALSE`, destructured to its first row. -/
def findInactiveParticipant (db : DB) (roomId userId : Nat) : Option RoomParticipantRow :=
  db.room_participants.find?
    (fun p => p.room_id == roomId && p.user_id == userId && !p.is_active)

/-- The value `joinRoom` resolves with. -/
structure JoinRoomInfo where
  roomId : Nat
  userId : Nat
  joined_at : Nat
  deriving DecidableEq

/-- `joinRoom(userId, roomId)` from `roomService.js` (lines 227-303).
Order of checks follows the source: room existence, then the locked-room
gate (which consumes an accepted join request when present), then the
active-participant idempotence check, then reactivation of an inactive row,
else insertion of a fresh row. -/
def joinRoom (db : DB) (userId roomId : Nat) (newId now : Nat) :
    Except AppError (JoinRoomInfo × DB) :=
  match findRoom db roomId with
  | none => .error ⟨"Room not found", 404⟩
  | some room =>
    let lockStep : Except AppError DB :=
      if room.is_locked then
        match findAcceptedRequest db roomId userId with
        | none => .error ⟨"Room is locked. Request to join or use an invite.", 403⟩
        | some jr =>
          .ok { db with room_join_requests :=
                  db.room_join_requests.filter (fun j => !(j.jid == jr.jid)) }
      else .ok db
    match lockStep with
    | .error e => .error e
    | .ok db1 =>
      match findActiveParticipant db1 roomId userId with
      | some _ => .ok (⟨roomId, userId, now⟩, db1)
      | none =>
        match findInactiveParticipant db1 roomId userId with
        | some ip =>
          let db2 := { db1 with room_participants :=
            db1.room_participants.map (fun p =>
              if p.pid == ip.pid then
                { p with is_active := true, left_at := none, joined_at := now }
              else p) }
          .ok (⟨roomId, userId, now⟩, db2)
        | none =>
          let db2 := { db1 with room_participants :=
            db1.room_participants ++ [⟨newId, roomId, userId, now, none, true⟩] }
          .ok (⟨roomId, userId, now⟩, db2)

/-- One entry of the `participants` array returned by `getRoomDetails`. -/
structure ParticipantView where
  uid : Nat
  username : String
  joined_at : Nat
  deriving DecidableEq

/-- The aggregate view returned by `getRoomDetails`. -/
structure RoomDetails where
  rid : Nat
  name : String
  rtype : String
  is_locked : Bool
  host_id : Nat
  participants : List ParticipantView
  active_games : List Nat
  participants_count : Nat
  deriving DecidableEq

/-- `SELECT ... FROM room_participants rp WHERE rp.room_id = ? AND
rp.is_active = TRUE` (before the join with `users`). -/
def activeParticipantRows (db : DB) (roomId : Nat) : List RoomParticipantRow :=
  db.room_participants.filter (fun p => p.room_id == roomId && p.is_active)

/-- `getRoomDetails(roomId)` from `roomService.js` (lines 65-129).  The
`JOIN users` of each query is modelled with `find?` on the `users` table
(its primary key makes at most one row match); a participant row whose user
is absent is dropped, exactly as an inner join drops it. -/
def getRoomDetails (db : DB) (roomId : Nat) : Except AppError RoomDetails :=
  match findRoom db roomId with
  | none => .error ⟨"Room not found", 404⟩
  | some room =>
    match db.users.find? (fun x => x.uid == room.host_id) with
    | none => .error ⟨"Room not found", 404⟩
    | some _host =>
      let parts := (activeParticipantRows db roomId).filterMap (fun p =>
        (db.users.find? (fun x => x.uid == p.user_id)).map (fun usr =>
          (⟨p.user_id, usr.username, p.joined_at⟩ : ParticipantView)))
      let gamesHere := (db.game_sessions.filter
          (fun s => s.room_id == roomId && s.status == "active")).filterMap (fun s =>
        (db.games.find? (fun g => g.gid == s.game_id)).map (fun _ => s.sid))
      .ok { rid := room.rid, name := room.name, rtype := room.rtype,
            is_locked := room.is_locked, host_id := room.host_id,
            participants := parts, active_games := gamesHere,
            participants_count := parts.length }

/-- `canUserJoinRoom(userId, roomId)` from `roomService.js` (lines 607-641):
host always true, unlocked room always true, locked room true iff an
accepted join request exists; missing room (or any error) yields `false`. -/
def canUserJoinRoom (db : DB) (userId roomId : Nat) : Bool :=
  match findRoom db roomId with
  | none => false
  | some room =>
    if room.host_id == userId then true
    else if !room.is_locked then true
    else (findAcceptedRequest db roomId userId).isSome

/-- One entry of the `participants` array returned by `getGameSession`. -/
structure GameParticipantView where
  user_id : Nat
  username : String
  score : Int
  joined_at : Nat
  deriving DecidableEq

/-- The aggregate view returned by `getGameSession`. -/
structure GameSessionView where
  sid : Nat
  game_id : Nat
  room_id : Nat
  status : String
  min_players : Nat
  max_players : Nat
  participants : List GameParticipantView
  participants_count : Nat
  deriving DecidableEq

/-- `SELECT id FROM game_participants WHERE game_session_id = ? AND
user_id = ? AND left_at IS NULL`, destructured to its first row. -/
def findOpenGameParticipant (db : DB) (sessionId userId : Nat) :
    Option GameParticipantRow :=
  db.game_participants.find?
    (fun p => p.game_session_id == sessionId && p.user_id == userId && p.left_at == none)

/-- `SELECT COUNT(*) FROM game_participants WHERE game_session_id = ? AND
left_at IS NULL`. -/
def nonLeftCount (db : DB) (sessionId : Nat) : Nat :=
  db.game_participants.countP
    (fun p => p.game_session_id == sessionId && p.left_at == none)

/-- `getGameSession(sessionId)` from the game-service module (lines
831-882): session row joined with its game, plus the non-left participants
joined with `users`. -/
def getGameSession (db : DB) (sessionId : Nat) : Except AppError GameSessionView :=
  match db.game_sessions.find? (fun s => s.sid == sessionId) with
  | none => .error ⟨"Game session not found", 404⟩
  | some s =>
    match db.games.find? (fun g => g.gid == s.game_id) with
    | none => .error ⟨"Game session not found", 404⟩
    | some g =>
      let parts := (db.game_participants.filter
          (fun p => p.game_session_id == sessionId && p.left_at == none)).filterMap (fun p =>
        (db.users.find? (fun x => x.uid == p.user_id)).map (fun usr =>
          (⟨p.user_id, usr.username, p.score, p.joined_at⟩ : GameParticipantView)))
      .ok { sid := s.sid, game_id := s.game_id, room_id := s.room_id,
            status := s.status, min_players := g.min_players,
            max_players := g.max_players, participants := parts,
            participants_count := parts.length }

/-- `createGameSession({gameId, roomId, createdBy})` from the game-service
module (lines 752-824): validates game, room, active room membership of the
creator and absence of another active session of the same game in the room,
then inserts the session row (status `active`) and the creator participant
row, and returns the session view. -/
def createGameSession (db : DB) (gameId roomId createdBy : Nat)
    (sessionId gpId now : Nat) : Except AppError (GameSessionView × DB) :=
  match db.games.find? (fun g => g.gid == gameId) with
  | none => .error ⟨"Game not found", 404⟩
  | some _game =>
    match findRoom db roomId with
    | none => .error ⟨"Room not found", 404⟩
    | some _room =>
      match findActiveParticipant db roomId createdBy with
      | none => .error ⟨"You must be in the room to start a game", 403⟩
      | some _p =>
        match db.game_sessions.find?
            (fun s => s.room_id == roomId && s.game_id == gameId && s.status == "active") with
        | some _s => .error ⟨"A session of this game is already active in this room", 400⟩
        | none =>
          let db1 := { db with
            game_sessions := db.game_sessions ++
              [⟨sessionId, gameId, roomId, "active", now, none, createdBy⟩],
            game_participants := db.game_participants ++
              [⟨gpId, sessionId, createdBy, 0, now, none⟩] }
          match getGameSession db1 sessionId with
          | .error e => .error e
          | .ok v => .ok (v, db1)

/-- `joinGameSession(sessionId, userId)` from the game-service module
(lines 890-971): session must exist (joined with its game) and be active,
the caller must be an active room participant; a caller already holding a
non-left participant row gets the current session view back unchanged;
otherwise the non-left count is compared against `max_players` ("Game is
full") before the insert. -/
def joinGameSession (db : DB) (sessionId userId : Nat) (newId now : Nat) :
    Except AppError (GameSessionView × DB) :=
  match db.game_sessions.find? (fun s => s.sid == sessionId) with
  | none => .error ⟨"Game session not found", 404⟩
  | some session =>
    match db.games.find? (fun g => g.gid == session.game_id) with
    | none => .error ⟨"Game session not found", 404⟩
    | some game =>
      if session.status == "active" then
        match findActiveParticipant db session.room_id userId with
        | none => .error ⟨"You must be in the room to join the game", 403⟩
        | some _rp =>
          match findOpenGameParticipant db sessionId userId with
          | some _gp =>
            match getGameSession db sessionId with
            | .error e => .error e
            | .ok v => .ok (v, db)
          | none =>
            if game.max_players ≤ nonLeftCount db sessionId then
              .error ⟨"Game is full", 400⟩
            else
              let db1 := { db with game_participants :=
                db.game_participants ++ [⟨newId, sessionId, userId, 0, now, none⟩] }
              match getGameSession db1 sessionId with
              | .error e => .error e
              | .ok v => .ok (v, db1)
      else .error ⟨"Game session is not active", 400⟩

/-- `leaveGameSession(sessionId, userId)` from the game-service module
(lines 979-1036): resolves `false` when the caller holds no open row; else
sets `left_at = NOW()` on that row and, when no non-left participant
remains and the session row read at entry was `active`, transitions the
session to `completed` with `ended_at = NOW()`. -/
def leaveGameSession (db : DB) (sessionId userId now : Nat) :
    Except AppError (Bool × DB) :=
  match db.game_sessions.find? (fun s => s.sid == sessionId) with
  | none => .error ⟨"Game session not found", 404⟩
  | some session =>
    match findOpenGameParticipant db sessionId userId with
    | none => .ok (false, db)
    | some part =>
      let db1 := { db with game_participants :=
        db.game_participants.map (fun p =>
          if p.gpid == part.gpid then { p with left_at := some now } else p) }
      let db2 :=
        if nonLeftCount db1 sessionId == 0 && session.status == "active" then
          { db1 with game_sessions := db1.game_sessions.map (fun s =>
              if s.sid == sessionId then
                { s with status := "completed", ended_at := some now }
              else s) }
        else db1
      .ok (true, db2)

/-- `endGameSession(sessionId, userId)` from the game-service module
(lines 1044-1098).  The source checks `status !== 'active'` (error "Game
session is already ended") BEFORE the creator-or-host authorization check;
on success it sets the session to `completed` with `ended_at = NOW()` and
stamps `left_at = NOW()` on every still-open participant row of the
session. -/
def endGameSession (db : DB) (sessionId userId now : Nat) :
    Except AppError (Bool × DB) :=
  match db.game_sessions.find? (fun s => s.sid == sessionId) with
  | none => .error ⟨"Game session not found", 404⟩
  | some session =>
    match db.rooms.find? (fun r => r.rid == session.room_id) with
    | none => .error ⟨"Game session not found", 404⟩
    | some room =>
      if session.status == "active" then
        if session.created_by == userId || room.host_id == userId then
          let db1 := { db with game_sessions := db.game_sessions.map (fun (s : GameSessionRow) =>
            if s.sid == sessionId then
              { s with status := "completed", ended_at := some now }
            else s) }
          let db2 := { db1 with game_participants := db1.game_participants.map (fun (p : GameParticipantRow) =>
            if p.game_session_id == sessionId && p.left_at == none then
              { p with left_at := some now }
            else p) }
          .ok (true, db2)
        else .error ⟨"Only the game creator or room host can end the game", 403⟩
      else .error ⟨"Game session is already ended", 400⟩

/-- `updatePlayerScore(sessionId, userId, score)` from the game-service
module (lines 1107-1162): requires an active session and an open
participant row, then stores `newScore = participant.score + score` (the
delta is added, never assigned). -/
def updatePlayerScore (db : DB) (sessionId userId : Nat) (score : Int) :
    Except AppError ((Nat × Int) × DB) :=
  match db.game_sessions.find? (fun s => s.sid == sessionId && s.status == "active") with
  | none => .error ⟨"Active game session not found", 404⟩
  | some _session =>
    match findOpenGameParticipant db sessionId userId with
    | none => .error ⟨"User is not in this game session", 404⟩
    | some part =>
      let newScore := part.score + score
      let db1 := { db with game_participants := db.game_participants.map (fun p =>
        if p.gpid == part.gpid then { p with score := newScore } else p) }
      .ok ((userId, newScore), db1)

/-- `createRoom({name, type, hostId})` from `roomService.js` (lines 15-58).
The source issues the `rooms` INSERT and the host `room_participants`
INSERT as two separate statements with no transaction, so a failure of the
second statement (modelled by the `failParticipantInsert` flag, standing
for any error the database layer can raise between the two statements)
leaves the already-committed room row behind; the function returns the
resulting database state alongside the thrown error to make that residue
observable. -/
def createRoom (db : DB) (name : String) (rtype : Option String) (hostId : Nat)
    (roomId pid now : Nat) (failParticipantInsert : Bool) :
    Except AppError RoomDetails × DB :=
  if name == "" then (.error ⟨"Room name and host ID are required", 400⟩, db)
  else if !(match rtype with
            | none => true
            | some t => t == "public" || t == "private") then
    (.error ⟨"Invalid room type", 400⟩, db)
  else if 0 < (db.rooms.filter (fun r => r.host_id == hostId && r.name == name)).length then
    (.error ⟨"Room with the same name already exists", 400⟩, db)
  else
    let db1 := { db with rooms :=
      db.rooms ++ [⟨roomId, name, rtype.getD "public", false, hostId⟩] }
    if failParticipantInsert then
      (.error ⟨"Database query error", 500⟩, db1)
    else
      let db2 := { db1 with room_participants :=
        db1.room_participants ++ [⟨pid, roomId, hostId, now, none, true⟩] }
      match getRoomDetails db2 roomId with
      | .error e => (.error e, db2)
      | .ok v => (.ok v, db2)

/-- The SQL text built by `updateRoom` for its rename-uniqueness check
(`roomService.js` line 157): the caller-supplied name is spliced into the
query text by template-literal interpolation, only `host_id` is a bound
parameter. -/
def updateRoomNameCheckQueryText (name : String) : String :=
  "SELECT id FROM rooms WHERE host_id = ? and name like \"%" ++ name ++ "%\""

/-- The bound-parameter list passed with the rename-uniqueness check:
only the host id. -/
def updateRoomNameCheckParams (userId : Nat) : List Nat := [userId]

/-- The SQL text built by `getPublicRooms` (`roomService.js` lines
356-383): the optional name filter is a bound parameter, but `limit` and
`offset` are spliced into the query text by template-literal
interpolation. -/
def getPublicRoomsQueryText (nameFilter : Option String) (limit offset : Nat) : String :=
  let base := "SELECT r.id, r.name, r.type, r.is_locked, r.host_id, r.created_at, " ++
    "u.username AS host_username, u.profile_picture AS host_profile_picture, " ++
    "(SELECT COUNT(*) FROM room_participants WHERE room_id = r.id AND is_active = TRUE) " ++
    "AS participants_count FROM rooms r JOIN users u ON u.id = r.host_id " ++
    "WHERE r.type = \x27public\x27"
  let withName :=
    match nameFilter with
    | some _ => base ++ " AND r.name LIKE ?"
    | none => base
  withName ++ " ORDER BY participants_count DESC, r.created_at DESC" ++
    " LIMIT " ++ toString limit ++ " OFFSET " ++ toString offset

/-- The bound-parameter list passed with the `getPublicRooms` query: just
the name pattern when a name filter is present. -/
def getPublicRoomsParams (nameFilter : Option String) : List String :=
  match nameFilter with
  | some n => ["%" ++ n ++ "%"]
  | none => []

/-- A JavaScript value as it reaches `updateJoinRequest`'s `accept`
parameter: the HTTP boundary sends a boolean, the realtime handler sends
the strings `accepted` / `rejected`. -/
inductive JSVal where
  | jbool (b : Bool)
  | jstr (s : String)
  deriving DecidableEq

/-- JavaScript truthiness of such a value: any non-empty string is truthy. -/
def truthy : JSVal → Bool
  | .jbool b => b
  | .jstr s => !(s == "")

/-- A `createNotification` call captured as data. -/
structure NotificationMsg where
  userId : Nat
  ntype : String
  title : String
  deriving DecidableEq

/-- The value `updateJoinRequest` resolves with. -/
structure JoinRequestResult where
  id : Nat
  roomId : Nat
  userId : Nat
  status : String
  deriving DecidableEq

/-- `updateJoinRequest(requestId, accept)` from `roomService.js` (lines
529-599): only a pending request may be resolved; the stored status and
the acceptance notification both branch solely on the truthiness of
`accept` (`accept ? 'accepted' : 'rejected'` and `if (accept)`).  The
emissions to the requester are captured in the returned lists. -/
def updateJoinRequest (db : DB) (requestId : Nat) (accept : JSVal) :
    Except AppError (JoinRequestResult × DB × List NotificationMsg × List (Nat × String)) :=
  match db.room_join_requests.find? (fun j => j.jid == requestId) with
  | none => .error ⟨"Join request not found", 404⟩
  | some request =>
    if request.status == "pending" then
      let newStatus := if truthy accept then "accepted" else "rejected"
      let db1 := { db with room_join_requests := db.room_join_requests.map (fun j =>
        if j.jid == requestId then { j with status := newStatus } else j) }
      if truthy accept then
        match db1.rooms.find? (fun r => r.rid == request.room_id) with
        | none => .error ⟨"Cannot read properties of undefined", 500⟩
        | some _room =>
          .ok (⟨requestId, request.room_id, request.user_id, newStatus⟩, db1,
               [⟨request.user_id, "room_join_request", "Room Join Request Accepted"⟩],
               [(request.user_id, "room-join-accepted")])
      else
        .ok (⟨requestId, request.room_id, request.user_id, newStatus⟩, db1, [], [])
    else .error ⟨"Join request already processed", 400⟩

/-- The `respond-join-request` realtime handler (`socket.js` lines
201-239): it forwards the STRING `accepted` or `rejected` (not the boolean)
to `updateJoinRequest`, then emits its own accepted/rejected event to the
requester based on the original boolean. -/
def respondJoinRequestHandler (db : DB) (requestId : Nat) (accept : JSVal) :
    DB × List NotificationMsg × List (Nat × String) :=
  match updateJoinRequest db requestId
      (.jstr (if truthy accept then "accepted" else "rejected")) with
  | .error _ => (db, [], [])
  | .ok (request, db1, notes, emits) =>
    if truthy accept then
      (db1,
       notes ++ [⟨request.userId, "room_join_request", "Room Join Request Accepted"⟩],
       emits ++ [(request.userId, "join-request-accepted")])
    else
      (db1, notes, emits ++ [(request.userId, "join-request-rejected")])

/-- The observable outcome of the `join-room` realtime handler. -/
structure JoinRoomHandlerResult where
  joinedChannel : Bool
  roomBroadcasts : List String
  selfEmits : List String
  db : DB
  deriving DecidableEq

/-- The `join-room` realtime handler (`socket.js` lines 70-102): when
`canUserJoinRoom` passes, it subscribes the connection to the room channel
and broadcasts `user-joined` BEFORE calling `joinRoom`; a throw from
`joinRoom` (or `getRoomDetails`) is caught and answered with
`room-join-error`, leaving the channel subscription and the broadcast in
place. -/
def joinRoomHandler (db : DB) (userId roomId : Nat) (newId now : Nat) :
    JoinRoomHandlerResult :=
  if canUserJoinRoom db userId roomId then
    match joinRoom db userId roomId newId now with
    | .ok (_, db1) =>
      match getRoomDetails db1 roomId with
      | .ok _ =>
        { joinedChannel := true, roomBroadcasts := ["user-joined"],
          selfEmits := ["room-data"], db := db1 }
      | .error _ =>
        { joinedChannel := true, roomBroadcasts := ["user-joined"],
          selfEmits := ["room-join-error"], db := db1 }
    | .error _ =>
      { joinedChannel := true, roomBroadcasts := ["user-joined"],
        selfEmits := ["room-join-error"], db := db }
  else
    { joinedChannel := false, roomBroadcasts := [],
      selfEmits := ["room-join-error"], db := db }

/-- Largest participant-row primary key plus one: a fresh key for the next
insert. -/
def freshPid (db : DB) : Nat :=
  (db.room_participants.map (fun p => p.pid)).foldr max 0 + 1

/-- `n` consecutive `joinRoom(U,R)` calls, each with a fresh row id; a call
that throws leaves the state unchanged (the embedding of `joinRoom` mutates
nothing before any of its throws). -/
def joinRoomIter (userId roomId now : Nat) : Nat → DB → DB
  | 0, db => db
  | n + 1, db =>
    match joinRoom db userId roomId (freshPid db) now with
    | .ok (_, db1) => joinRoomIter userId roomId now n db1
    | .error _ => joinRoomIter userId roomId now n db

/-- The `room_participants` rows for `(roomId, userId)` with
`is_active = TRUE`. -/
def roomUserActiveP (roomId userId : Nat) : RoomParticipantRow → Bool :=
  fun p => p.room_id == roomId && p.user_id == userId && p.is_active

/-- How many `room_participants` rows for `(roomId, userId)` have
`is_active = TRUE`. -/
def activeRowCount (db : DB) (roomId userId : Nat) : Nat :=
  db.room_participants.countP (roomUserActiveP roomId userId)

/-- How many times user `u` occurs in the `participants` array of a
`getRoomDetails` view. -/
def participantViewCount (d : RoomDetails) (u : Nat) : Nat :=
  (d.participants.filter (fun pv => pv.uid == u)).length

/-- Largest game-participant primary key plus one. -/
def freshGpId (db : DB) : Nat :=
  (db.game_participants.map (fun p => p.gpid)).foldr max 0 + 1

/-- `joinGameSession` applied for each user in turn (each with a fresh row
id), collecting `none` for a resolved call and the thrown error otherwise;
a throwing call leaves the state unchanged. -/
def joinGameSeq (sessionId now : Nat) : List Nat → DB → List (Option AppError) × DB
  | [], db => ([], db)
  | u :: us, db =>
    match joinGameSession db sessionId u (freshGpId db) now with
    | .ok (_, db1) =>
      let r := joinGameSeq sessionId now us db1
      (none :: r.1, r.2)
    | .error e =>
      let r := joinGameSeq sessionId now us db
      (some e :: r.1, r.2)

/-- `updatePlayerScore` applied for each delta in turn; a throwing call
leaves the state unchanged. -/
def applyDeltas (sessionId userId : Nat) : List Int → DB → DB
  | [], db => db
  | d :: ds, db =>
    match updatePlayerScore db sessionId userId d with
    | .ok (_, db1) => applyDeltas sessionId userId ds db1
    | .error _ => applyDeltas sessionId userId ds db

/-- The stored score of the open participant row of `(sessionId, userId)`. -/
def storedScore (db : DB) (sessionId userId : Nat) : Option Int :=
  (findOpenGameParticipant db sessionId userId).map (fun p => p.score)

/-- The §3/§4.2 session invariant: no session row is `active` while no
non-left participant row references it. -/
def noEmptyActiveSession (db : DB) : Prop :=
  ∀ s ∈ db.game_sessions, s.status = "active" → 1 ≤ nonLeftCount db s.sid

/-! ### Concrete states used by counterexamples and witnesses -/

/-- A users table shared by the concrete states. -/
def exUsers : List UserRow :=
  [⟨10, "alice"⟩, ⟨20, "bob"⟩, ⟨30, "carol"⟩, ⟨40, "dave"⟩, ⟨50, "erin"⟩]

/-- Users only; the starting state for the `createRoom` run. -/
def exDBusers : DB := ⟨exUsers, [], [], [], [], [], []⟩

/-- A locked room 1 (host 10) whose user 20 is already an active
participant and holds no accepted join request. -/
def exDBlockedActive : DB :=
  ⟨exUsers, [⟨1, "game-night", "public", true, 10⟩],
   [⟨100, 1, 20, 1, none, true⟩], [], [], [], []⟩

/-- An unlocked room 1 with user 20 active. -/
def exDBopen : DB :=
  ⟨exUsers, [⟨1, "game-night", "public", false, 10⟩],
   [⟨100, 1, 20, 1, none, true⟩], [], [], [], []⟩

/-- A locked room 1 with an accepted join request (row 7) for user 30. -/
def exDBlockedAccepted : DB :=
  ⟨exUsers, [⟨1, "game-night", "public", true, 10⟩], [],
   [⟨7, 1, 30, "accepted"⟩], [], [], []⟩

/-- A 2-player game 2, an active session 5 of it in room 1 with no
participants yet, and users 20, 30, 40 active in the room. -/
def exDBgame : DB :=
  ⟨exUsers, [⟨1, "game-night", "public", false, 10⟩],
   [⟨100, 1, 20, 1, none, true⟩, ⟨101, 1, 30, 1, none, true⟩,
    ⟨102, 1, 40, 1, none, true⟩],
   [], [⟨2, "pong", 2, 2⟩],
   [⟨5, 2, 1, "active", 1, none, 20⟩], []⟩

/-- Session 5 active with a single open participant row (user 20). -/
def exDBoneInGame : DB :=
  ⟨exUsers, [⟨1, "game-night", "public", false, 10⟩],
   [⟨100, 1, 20, 1, none, true⟩], [], [⟨2, "pong", 2, 4⟩],
   [⟨5, 2, 1, "active", 1, none, 20⟩],
   [⟨200, 5, 20, 0, 1, none⟩]⟩

/-- A completed session 5 (creator 20, room host 10). -/
def exDBended : DB :=
  ⟨exUsers, [⟨1, "game-night", "public", false, 10⟩],
   [⟨100, 1, 20, 1, none, true⟩], [], [⟨2, "pong", 2, 4⟩],
   [⟨5, 2, 1, "completed", 1, some 2, 20⟩], []⟩

/-- A pending join request (row 7) of user 30 for locked room 1. -/
def exDBpendingReq : DB :=
  ⟨exUsers, [⟨1, "game-night", "public", true, 10⟩], [],
   [⟨7, 1, 30, "pending"⟩], [], [], []⟩

/-! ### Generic list helper lemmas -/

/-- `find?` only looks at the predicate values on the list. -/
theorem booze_find?_congr {α : Type} {p q : α → Bool} :
    ∀ (l : List α), (∀ a ∈ l, p a = q a) → l.find? p = l.find? q
  | [], _ => rfl
  | a :: l, h => by
    have ha := h a (List.mem_cons_self a l)
    by_cases hpa : p a = true
    · rw [List.find?_cons_of_pos _ hpa, List.find?_cons_of_pos _ (ha ▸ hpa)]
    · rw [List.find?_cons_of_neg _ hpa, List.find?_cons_of_neg _ (ha ▸ hpa)]
      exact booze_find?_congr l (fun a ha => h a (List.mem_cons_of_mem _ ha))

/-- A map that fixes every element of the list is the identity on it. -/
theorem booze_map_id {α : Type} (f : α → α) :
    ∀ (l : List α), (∀ a ∈ l, f a = a) → l.map f = l
  | [], _ => rfl
  | a :: l, h => by
    rw [List.map_cons, h a (List.mem_cons_self a l),
      booze_map_id f l (fun a ha => h a (List.mem_cons_of_mem _ ha))]

/-- A pointwise predicate-preserving rewrite of the elements preserves
`countP`. -/
theorem booze_countP_map_inv {α : Type} (f : α → α) (p : α → Bool) (l : List α)
    (h : ∀ a ∈ l, p (f a) = p a) : (l.map f).countP p = l.countP p := by
  rw [List.countP_map]
  exact List.countP_congr (fun a ha => by rw [Function.comp_apply, h a ha])

/-- A pointwise predicate-preserving rewrite of the elements commutes with
`find?`. -/
theorem booze_find?_map_inv {α : Type} (f : α → α) (p : α → Bool) (l : List α)
    (h : ∀ a ∈ l, p (f a) = p a) : (l.map f).find? p = (l.find? p).map f := by
  rw [List.find?_map]
  exact congrArg (Option.map f) (booze_find?_congr l (fun a ha => by
    rw [Function.comp_apply, h a ha]))

/-- Every member of a list of naturals is bounded by its `foldr max 0`. -/
theorem booze_le_foldr_max : ∀ (l : List Nat), ∀ x ∈ l, x ≤ l.foldr max 0
  | a :: l, x, hx => by
    rcases List.mem_cons.mp hx with h | h
    · exact h ▸ le_max_left _ _
    · exact le_trans (booze_le_foldr_max l x h) (le_max_right _ _)

/-- With pairwise-distinct keys, a member whose key matches the lookup key
is the row `find?` returns. -/
theorem booze_key_unique {α : Type} (key : α → Nat) (k : Nat) :
    ∀ (l : List α), (l.map key).Nodup → ∀ a b : α, a ∈ l → key a = k →
      l.find? (fun x => key x == k) = some b → a = b
  | c :: l, hnd, a, b, ha, hk, hfind => by
    rw [List.map_cons, List.nodup_cons] at hnd
    by_cases hc : key c = k
    · have hpos : (fun x => key x == k) c = true := by simp [hc]
      rw [@List.find?_cons_of_pos α (fun x => key x == k) c l hpos] at hfind
      rcases List.mem_cons.mp ha with h | h
      · exact h.trans (Option.some.inj hfind)
      · exact absurd (List.mem_map.mpr ⟨a, h, hk.trans hc.symm⟩) hnd.1
    · have hneg : ¬((fun x => key x == k) c = true) := by simp [hc]
      rw [@List.find?_cons_of_neg α (fun x => key x == k) c l hneg] at hfind
      rcases List.mem_cons.mp ha with h | h
      · exact absurd (by rw [← h]; exact hk) hc
      · exact booze_key_unique key k l hnd.2 a b h hk hfind

/-! ### C1: joinRoom idempotence (counterexample part) -/

/-- C1 counterexample: in a LOCKED room, a user who is already an active
`RoomParticipant` (and holds no accepted join request) does NOT get an
idempotent success from `joinRoom` — the locked-room gate runs first and
throws the 403 `AuthorizationError`, refuting "if an active RoomParticipant
row for (R,U) already exists, joinRoom(U,R) succeeds" as universally
stated. -/
theorem joinRoom_locked_active_participant_fails :
    (findActiveParticipant exDBlockedActive 1 20).isSome = true ∧
    findAcceptedRequest exDBlockedActive 1 20 = none ∧
    joinRoom exDBlockedActive 20 1 999 5 =
      .error ⟨"Room is locked. Request to join or use an invite.", 403⟩ :=
  ⟨rfl, rfl, rfl⟩

/-! ### C2: the locked-room gate of joinRoom -/

/-- C2: for a locked room, `joinRoom` throws the 403 `AuthorizationError`
when no accepted join request exists, and with an accepted request it
resolves and deletes exactly that request row in the same call. -/
theorem joinRoom_locked_gate (db : DB) (u r nid now : Nat) (room : RoomRow)
    (hroom : findRoom db r = some room)
    (hlock : room.is_locked = true) :
    (findAcceptedRequest db r u = none →
      joinRoom db u r nid now =
        .error ⟨"Room is locked. Request to join or use an invite.", 403⟩) ∧
    (∀ jr, findAcceptedRequest db r u = some jr →
      ∃ db1, joinRoom db u r nid now = .ok (⟨r, u, now⟩, db1) ∧
        db1.room_join_requests =
          db.room_join_requests.filter (fun j => !(j.jid == jr.jid))) := by
  constructor
  · intro hnone
    simp only [joinRoom, hroom, hlock, hnone, if_true]
  · intro jr hjr
    cases hap : findActiveParticipant
        { db with room_join_requests :=
            db.room_join_requests.filter (fun j => !(j.jid == jr.jid)) } r u with
    | some q =>
      refine ⟨{ db with room_join_requests :=
          db.room_join_requests.filter (fun j => !(j.jid == jr.jid)) }, ?_, rfl⟩
      simp only [joinRoom, hroom, hlock, hjr, if_true, hap]
    | none =>
      cases hip : findInactiveParticipant
          { db with room_join_requests :=
              db.room_join_requests.filter (fun j => !(j.jid == jr.jid)) } r u with
      | some ip =>
        refine ⟨{ db with
            room_join_requests := db.room_join_requests.filter (fun j => !(j.jid == jr.jid)),
            room_participants := db.room_participants.map (fun p =>
              if p.pid == ip.pid then
                { p with is_active := true, left_at := none, joined_at := now }
              else p) }, ?_, rfl⟩
        simp only [joinRoom, hroom, hlock, hjr, if_true, hap, hip]
      | none =>
        refine ⟨{ db with
            room_join_requests := db.room_join_requests.filter (fun j => !(j.jid == jr.jid)),
            room_participants := db.room_participants ++ [⟨nid, r, u, now, none, true⟩] },
          ?_, rfl⟩
        simp only [joinRoom, hroom, hlock, hjr, if_true, hap, hip]

/-- C2 witness at a concrete state: locked room 1, user 30 with accepted
request row 7. -/
theorem joinRoom_locked_gate_witness :
    joinRoom exDBlockedAccepted 30 1 999 5 =
      .ok (⟨1, 30, 5⟩, { exDBlockedAccepted with
        room_join_requests := [], room_participants := [⟨999, 1, 30, 5, none, true⟩] }) ∧
    joinRoom exDBlockedAccepted 40 1 999 5 =
      .error ⟨"Room is locked. Request to join or use an invite.", 403⟩ := by
  have h := joinRoom_locked_gate exDBlockedAccepted 40 1 999 5
    ⟨1, "game-night", "public", true, 10⟩ rfl rfl
  exact ⟨rfl, h.1 rfl⟩

/-! ### C10: no host exemption in the locked-room gate -/

/-- C10: for a locked room with no accepted request for its host,
`canUserJoinRoom` answers `true` for the host while `joinRoom` throws the
403; the realtime `join-room` handler therefore subscribes the host's
connection to the channel and broadcasts `user-joined`, then answers
`room-join-error`, leaving the participant table untouched. -/
theorem canUserJoinRoom_host_vs_joinRoom (db : DB) (r h nid now : Nat) (room : RoomRow)
    (hroom : findRoom db r = some room)
    (hlock : room.is_locked = true)
    (hhost : room.host_id = h)
    (hnoreq : findAcceptedRequest db r h = none) :
    canUserJoinRoom db h r = true ∧
    joinRoom db h r nid now =
      .error ⟨"Room is locked. Request to join or use an invite.", 403⟩ ∧
    joinRoomHandler db h r nid now =
      { joinedChannel := true, roomBroadcasts := ["user-joined"],
        selfEmits := ["room-join-error"], db := db } := by
  have hcan : canUserJoinRoom db h r = true := by
    simp [canUserJoinRoom, hroom, hhost]
  have hjoin : joinRoom db h r nid now =
      .error ⟨"Room is locked. Request to join or use an invite.", 403⟩ := by
    simp only [joinRoom, hroom, hlock, hnoreq, if_true]
  refine ⟨hcan, hjoin, ?_⟩
  simp only [joinRoomHandler, hcan, if_true, hjoin]

/-- C10 witness: host 10 of locked room 1 in the concrete state. -/
theorem canUserJoinRoom_host_vs_joinRoom_witness :
    canUserJoinRoom exDBlockedActive 10 1 = true ∧
    joinRoom exDBlockedActive 10 1 999 5 =
      .error ⟨"Room is locked. Request to join or use an invite.", 403⟩ ∧
    joinRoomHandler exDBlockedActive 10 1 999 5 =
      { joinedChannel := true, roomBroadcasts := ["user-joined"],
        selfEmits := ["room-join-error"], db := exDBlockedActive } :=
  canUserJoinRoom_host_vs_joinRoom exDBlockedActive 1 10 999 5
    ⟨1, "game-night", "public", true, 10⟩ rfl rfl rfl rfl

/-! ### C5: endGameSession ordering and effects -/

/-- C5 counterexample: session 5 of `exDBended` is `completed`, its creator
is 20 and the room host is 10, yet `endGameSession` for the unrelated user
30 throws the domain error "Game session is already ended" (400) rather
than the AuthorizationError the claim promises for every non-creator
non-host caller — the status check runs before the authorization check. -/
theorem endGameSession_status_before_auth :
    (exDBended.game_sessions.find? (fun s => s.sid == 5)).map
      (fun s => s.created_by) = some 20 ∧
    (exDBended.rooms.find? (fun r => r.rid == 1)).map
      (fun r => r.host_id) = some 10 ∧
    (30 : Nat) ≠ 20 ∧ (30 : Nat) ≠ 10 ∧
    endGameSession exDBended 5 30 9 =
      .error ⟨"Game session is already ended", 400⟩ :=
  ⟨rfl, rfl, by decide, by decide, rfl⟩

/-- C5 (amended): `endGameSession` first demands `status = active` (else
the 400 "Game session is already ended" domain error, regardless of who
calls); for an active session it throws the 403 AuthorizationError unless
the caller is the session creator or the room host; on success it sets the
session to `completed` with `ended-at` and stamps `left_at` on every
still-open participant row of the session. -/
theorem endGameSession_amended (db : DB) (sid u now : Nat)
    (session : GameSessionRow) (room : RoomRow)
    (hsess : db.game_sessions.find? (fun s => s.sid == sid) = some session)
    (hroom : db.rooms.find? (fun r => r.rid == session.room_id) = some room) :
    (session.status ≠ "active" →
      endGameSession db sid u now = .error ⟨"Game session is already ended", 400⟩) ∧
    (session.status = "active" → session.created_by ≠ u → room.host_id ≠ u →
      endGameSession db sid u now =
        .error ⟨"Only the game creator or room host can end the game", 403⟩) ∧
    (session.status = "active" → (session.created_by = u ∨ room.host_id = u) →
      ∃ db2, endGameSession db sid u now = .ok (true, db2) ∧
        (∀ s ∈ db2.game_sessions, s.sid = sid →
          s.status = "completed" ∧ s.ended_at = some now) ∧
        (∀ p ∈ db2.game_participants, p.game_session_id = sid → p.left_at ≠ none) ∧
        (∀ p ∈ db.game_participants, p.game_session_id = sid → p.left_at = none →
          ({ p with left_at := some now } : GameParticipantRow) ∈ db2.game_participants)) := by
  refine ⟨?_, ?_, ?_⟩
  · intro hstat
    have hb : (session.status == "active") = false := by
      simp [hstat]
    simp only [endGameSession, hsess, hroom, hb, Bool.false_eq_true, if_false]
  · intro hstat hcb hhb
    have hb : (session.status == "active") = true := by simp [hstat]
    have ha : (session.created_by == u || room.host_id == u) = false := by
      simp [hcb, hhb]
    simp only [endGameSession, hsess, hroom, hb, if_true, ha,
      Bool.false_eq_true, if_false]
  · intro hstat hauth
    have hb : (session.status == "active") = true := by simp [hstat]
    have ha : (session.created_by == u || room.host_id == u) = true := by
      rcases hauth with h | h <;> simp [h]
    refine ⟨{ db with
        game_sessions := db.game_sessions.map (fun (s : GameSessionRow) =>
          if s.sid == sid then { s with status := "completed", ended_at := some now }
          else s),
        game_participants := db.game_participants.map (fun (p : GameParticipantRow) =>
          if p.game_session_id == sid && p.left_at == none then
            { p with left_at := some now }
          else p) }, ?_, ?_, ?_, ?_⟩
    · simp only [endGameSession, hsess, hroom, hb, if_true, ha]
    · intro s hs hsid
      rcases List.mem_map.mp hs with ⟨s0, _hs0, rfl⟩
      by_cases h0 : (s0.sid == sid) = true
      · simp [h0]
      · exact absurd (by simpa [h0] using hsid) (by simpa using h0)
    · intro p hp hpsid
      rcases List.mem_map.mp hp with ⟨p0, _hp0, rfl⟩
      by_cases h0 : (p0.game_session_id == sid && p0.left_at == none) = true
      · simp [h0]
      · rw [Bool.not_eq_true] at h0
        simp only [h0, Bool.false_eq_true, if_false]
        simp only [h0, Bool.false_eq_true, if_false] at hpsid
        intro hleft
        have hcontra : (p0.game_session_id == sid && p0.left_at == none) = true := by
          simp [hpsid, hleft]
        rw [h0] at hcontra
        exact absurd hcontra (by decide)
    · intro p hp hpsid hpleft
      refine List.mem_map.mpr ⟨p, hp, ?_⟩
      simp [hpsid, hpleft]

/-- C5 witness: the creator (user 20) ends active session 5 of
`exDBoneInGame`; the hypotheses of the amended theorem hold there. -/
theorem endGameSession_amended_witness :
    ∃ db2, endGameSession exDBoneInGame 5 20 9 = .ok (true, db2) ∧
      (∀ s ∈ db2.game_sessions, s.sid = 5 →
        s.status = "completed" ∧ s.ended_at = some 9) ∧
      (∀ p ∈ db2.game_participants, p.game_session_id = 5 → p.left_at ≠ none) ∧
      (∀ p ∈ exDBoneInGame.game_participants, p.game_session_id = 5 → p.left_at = none →
        ({ p with left_at := some 9 } : GameParticipantRow) ∈ db2.game_participants) :=
  (endGameSession_amended exDBoneInGame 5 20 9 ⟨5, 2, 1, "active", 1, none, 20⟩
    ⟨1, "game-night", "public", false, 10⟩ rfl rfl).2.2 rfl (Or.inl rfl)

/-! ### C7: createRoom is not atomic -/

/-- C7: the two inserts of `createRoom` are separate statements with no
transaction; when the participant insert fails the already-committed room
row stays behind with zero participants. -/
theorem createRoom_partial_failure_leaves_orphan_room :
    (createRoom exDBusers "party" none 10 1 2 3 true).1 =
      .error ⟨"Database query error", 500⟩ ∧
    (createRoom exDBusers "party" none 10 1 2 3 true).2.rooms =
      [⟨1, "party", "public", false, 10⟩] ∧
    (createRoom exDBusers "party" none 10 1 2 3 true).2.room_participants = [] :=
  ⟨rfl, rfl, rfl⟩

/-! ### C8: SQL text built from caller input -/

set_option maxRecDepth 10000 in
/-- C8: the SQL text of `updateRoom`'s rename-uniqueness check and of
`getPublicRooms` varies with caller-supplied values (the name is
interpolated into the former, `limit`/`offset` into the latter), while the
bound-parameter lists do not carry them — refuting "the query text is
independent of the caller-supplied input values". -/
theorem sql_text_depends_on_input :
    updateRoomNameCheckQueryText "a" ≠ updateRoomNameCheckQueryText "b" ∧
    getPublicRoomsQueryText none 20 0 ≠ getPublicRoomsQueryText none 21 0 ∧
    updateRoomNameCheckParams 9 = [9] ∧
    getPublicRoomsParams none = [] := by
  exact ⟨by decide, by decide, rfl, rfl⟩

/-! ### C6: updatePlayerScore is additive -/

/-- One `updatePlayerScore` call under its preconditions: the stored row is
replaced by the same row with `score := old + delta`, and nothing else the
later calls read changes. -/
theorem updatePlayerScore_step (db : DB) (sid u : Nat) (d : Int)
    (session : GameSessionRow) (part : GameParticipantRow)
    (hsess : db.game_sessions.find?
      (fun s => s.sid == sid && s.status == "active") = some session)
    (hpart : findOpenGameParticipant db sid u = some part) :
    ∃ db1, updatePlayerScore db sid u d = .ok ((u, part.score + d), db1) ∧
      db1.game_sessions = db.game_sessions ∧
      findOpenGameParticipant db1 sid u =
        some { part with score := part.score + d } := by
  refine ⟨{ db with game_participants :=
      db.game_participants.map (fun (p : GameParticipantRow) =>
        if p.gpid == part.gpid then { p with score := part.score + d } else p) },
    ?_, rfl, ?_⟩
  · simp only [updatePlayerScore, hsess, hpart]
  · show (db.game_participants.map _).find? _ = _
    rw [booze_find?_map_inv _ _ _ (fun a _ha => by
      by_cases h : (a.gpid == part.gpid) = true <;> simp [h])]
    rw [show db.game_participants.find?
        (fun p => p.game_session_id == sid && p.user_id == u && p.left_at == none) =
        some part from hpart]
    simp

/-- A delta sequence folds to the sum: after `applyDeltas` the stored score
is the starting score plus the sum of the deltas. -/
theorem applyDeltas_sum (sid u : Nat) :
    ∀ (ds : List Int) (db : DB) (session : GameSessionRow) (part : GameParticipantRow),
      db.game_sessions.find?
        (fun s => s.sid == sid && s.status == "active") = some session →
      findOpenGameParticipant db sid u = some part →
      storedScore (applyDeltas sid u ds db) sid u = some (part.score + ds.sum)
  | [], db, session, part, _hsess, hpart => by
    simp [applyDeltas, storedScore, hpart]
  | d :: ds, db, session, part, hsess, hpart => by
    rcases updatePlayerScore_step db sid u d session part hsess hpart with
      ⟨db1, hok, hsess1, hpart1⟩
    have hstep : applyDeltas sid u (d :: ds) db = applyDeltas sid u ds db1 := by
      simp [applyDeltas, hok]
    rw [hstep]
    have hs1 : db1.game_sessions.find?
        (fun s => s.sid == sid && s.status == "active") = some session := by
      rw [hsess1]; exact hsess
    rw [applyDeltas_sum sid u ds db1 session _ hs1 hpart1]
    simp [List.sum_cons, add_assoc]

/-- C6: `updatePlayerScore` stores `old + delta`, never an absolute value;
hence any delta sequence lands on `old + sum`, and permuted delta sequences
land on the same final score. -/
theorem updatePlayerScore_additive (db : DB) (sid u : Nat)
    (session : GameSessionRow) (part : GameParticipantRow)
    (hsess : db.game_sessions.find?
      (fun s => s.sid == sid && s.status == "active") = some session)
    (hpart : findOpenGameParticipant db sid u = some part) :
    (∀ d : Int, ∃ db1, updatePlayerScore db sid u d = .ok ((u, part.score + d), db1) ∧
      storedScore db1 sid u = some (part.score + d)) ∧
    (∀ ds : List Int,
      storedScore (applyDeltas sid u ds db) sid u = some (part.score + ds.sum)) ∧
    (∀ ds1 ds2 : List Int, ds1.Perm ds2 →
      storedScore (applyDeltas sid u ds1 db) sid u =
        storedScore (applyDeltas sid u ds2 db) sid u) := by
  refine ⟨?_, ?_, ?_⟩
  · intro d
    rcases updatePlayerScore_step db sid u d session part hsess hpart with
      ⟨db1, hok, _hsess1, hpart1⟩
    exact ⟨db1, hok, by simp [storedScore, hpart1]⟩
  · intro ds
    exact applyDeltas_sum sid u ds db session part hsess hpart
  · intro ds1 ds2 hperm
    rw [applyDeltas_sum sid u ds1 db session part hsess hpart,
      applyDeltas_sum sid u ds2 db session part hsess hpart, hperm.sum_eq]

/-- C6 witness: user 20 in active session 5 starting from score 0; the
sequence `[+5, -2, +3]` lands on 6, and so does its permutation
`[+3, +5, -2]`. -/
theorem updatePlayerScore_additive_witness :
    storedScore (applyDeltas 5 20 [5, -2, 3] exDBoneInGame) 5 20 =
      some ((0 : Int) + ([5, -2, 3] : List Int).sum) ∧
    ((0 : Int) + ([5, -2, 3] : List Int).sum = 6) ∧
    storedScore (applyDeltas 5 20 [5, -2, 3] exDBoneInGame) 5 20 =
      storedScore (applyDeltas 5 20 [3, 5, -2] exDBoneInGame) 5 20 := by
  have h := updatePlayerScore_additive exDBoneInGame 5 20
    ⟨5, 2, 1, "active", 1, none, 20⟩ ⟨200, 5, 20, 0, 1, none⟩ rfl rfl
  exact ⟨h.2.1 [5, -2, 3], by decide, h.2.2 [5, -2, 3] [3, 5, -2] (by decide)⟩

/-! ### C9: updateJoinRequest branches on truthiness -/

/-- Any truthy `accept` value drives a pending request to `accepted`,
notifies the requester of acceptance and emits `room-join-accepted`. -/
theorem updateJoinRequest_accepts_of_truthy (db : DB) (rid : Nat)
    (request : RoomJoinRequestRow)
    (hreq : db.room_join_requests.find? (fun j => j.jid == rid) = some request)
    (hpending : request.status = "pending")
    (hroom : (db.rooms.find? (fun r => r.rid == request.room_id)).isSome)
    (v : JSVal) (hv : truthy v = true) :
    ∃ db1 notes emits,
      updateJoinRequest db rid v =
        .ok (⟨rid, request.room_id, request.user_id, "accepted"⟩, db1, notes, emits) ∧
      (∀ j ∈ db1.room_join_requests, j.jid = rid → j.status = "accepted") ∧
      notes = [⟨request.user_id, "room_join_request", "Room Join Request Accepted"⟩] ∧
      emits = [(request.user_id, "room-join-accepted")] := by
  have hb : (request.status == "pending") = true := by simp [hpending]
  rcases Option.isSome_iff_exists.mp hroom with ⟨roomRow, hroomRow⟩
  refine ⟨{ db with room_join_requests := db.room_join_requests.map (fun j =>
      if j.jid == rid then { j with status := "accepted" } else j) },
    [⟨request.user_id, "room_join_request", "Room Join Request Accepted"⟩],
    [(request.user_id, "room-join-accepted")], ?_, ?_, rfl, rfl⟩
  · simp only [updateJoinRequest, hreq, hb, if_true, hv,
      show ({ db with room_join_requests := db.room_join_requests.map (fun j =>
        if j.jid == rid then { j with status := "accepted" } else j) } : DB).rooms =
        db.rooms from rfl, hroomRow]
  · intro j hj hjid
    rcases List.mem_map.mp hj with ⟨j0, _hj0, rfl⟩
    by_cases h0 : (j0.jid == rid) = true
    · simp [h0]
    · exact absurd (by simpa [h0] using hjid) (by simpa using h0)

/-- C9: `updateJoinRequest` branches only on JavaScript truthiness of
`accept`, and the realtime `respond-join-request` handler forwards the
STRING `rejected` (which is truthy); so a rejection submitted over the
realtime channel stores status `accepted` and notifies the requester of
acceptance (while the handler's own follow-up event still says
rejected). -/
theorem respondJoinRequest_rejection_becomes_accepted (db : DB) (rid : Nat)
    (request : RoomJoinRequestRow)
    (hreq : db.room_join_requests.find? (fun j => j.jid == rid) = some request)
    (hpending : request.status = "pending")
    (hroom : (db.rooms.find? (fun r => r.rid == request.room_id)).isSome) :
    truthy (.jstr "rejected") = true ∧
    (∀ v : JSVal, truthy v = true →
      ∃ db1 notes emits,
        updateJoinRequest db rid v =
          .ok (⟨rid, request.room_id, request.user_id, "accepted"⟩, db1, notes, emits) ∧
        (∀ j ∈ db1.room_join_requests, j.jid = rid → j.status = "accepted")) ∧
    (∃ db1 notes emits,
      respondJoinRequestHandler db rid (.jbool false) = (db1, notes, emits) ∧
      (∀ j ∈ db1.room_join_requests, j.jid = rid → j.status = "accepted") ∧
      (⟨request.user_id, "room_join_request",
        "Room Join Request Accepted"⟩ : NotificationMsg) ∈ notes ∧
      (request.user_id, "room-join-accepted") ∈ emits ∧
      (request.user_id, "join-request-rejected") ∈ emits) := by
  refine ⟨rfl, ?_, ?_⟩
  · intro v hv
    rcases updateJoinRequest_accepts_of_truthy db rid request hreq hpending hroom v hv with
      ⟨db1, notes, emits, hok, hall, _⟩
    exact ⟨db1, notes, emits, hok, hall⟩
  · rcases updateJoinRequest_accepts_of_truthy db rid request hreq hpending hroom
      (.jstr "rejected") rfl with ⟨db1, notes, emits, hok, hall, hnotes, hemits⟩
    refine ⟨db1, notes, emits ++ [(request.user_id, "join-request-rejected")], ?_,
      hall, ?_, ?_, ?_⟩
    · simp only [respondJoinRequestHandler, show truthy (.jbool false) = false from rfl,
        Bool.false_eq_true, if_false, hok]
    · rw [hnotes]; exact List.mem_cons_self _ _
    · rw [hemits]; exact List.mem_append_left _ (List.mem_cons_self _ _)
    · exact List.mem_append_right _ (List.mem_cons_self _ _)

/-- C9 witness: rejecting pending request 7 of user 30 over the realtime
channel stores `accepted`. -/
theorem respondJoinRequest_rejection_becomes_accepted_witness :
    truthy (.jstr "rejected") = true ∧
    (∃ db1 notes emits,
      respondJoinRequestHandler exDBpendingReq 7 (.jbool false) = (db1, notes, emits) ∧
      (∀ j ∈ db1.room_join_requests, j.jid = 7 → j.status = "accepted") ∧
      (⟨30, "room_join_request",
        "Room Join Request Accepted"⟩ : NotificationMsg) ∈ notes ∧
      (30, "room-join-accepted") ∈ emits ∧
      (30, "join-request-rejected") ∈ emits) := by
  have h := respondJoinRequest_rejection_becomes_accepted exDBpendingReq 7
    ⟨7, 1, 30, "pending"⟩ rfl rfl rfl
  exact ⟨h.1, h.2.2⟩

/-! ### C1 amended: joinRoom idempotence machinery -/

/-- Mapping with a function that preserves a projection preserves the
projected list. -/
theorem booze_map_map_congr {α β : Type} (f : α → α) (g : α → β) :
    ∀ (l : List α), (∀ a ∈ l, g (f a) = g a) → (l.map f).map g = l.map g
  | [], _ => rfl
  | a :: l, h => by
    simp only [List.map_cons]
    rw [h a (List.mem_cons_self a l),
      booze_map_map_congr f g l (fun b hb => h b (List.mem_cons_of_mem _ hb))]

/-- With pairwise-distinct keys, equal keys force equal rows. -/
theorem booze_key_inj {α : Type} (key : α → Nat) :
    ∀ (l : List α), (l.map key).Nodup → ∀ a b, a ∈ l → b ∈ l → key a = key b → a = b
  | c :: l, hnd, a, b, ha, hb, hk => by
    rw [List.map_cons, List.nodup_cons] at hnd
    rcases List.mem_cons.mp ha with h1 | h1 <;> rcases List.mem_cons.mp hb with h2 | h2
    · rw [h1, h2]
    · exact absurd (List.mem_map.mpr ⟨b, h2, by rw [← hk, h1]⟩) hnd.1
    · exact absurd (List.mem_map.mpr ⟨a, h1, by rw [hk, h2]⟩) hnd.1
    · exact booze_key_inj key l hnd.2 a b h1 h2 hk

/-- Appending one fresh element keeps a list duplicate-free. -/
theorem booze_nodup_append_singleton {α : Type} :
    ∀ (l : List α) (x : α), l.Nodup → x ∉ l → (l ++ [x]).Nodup
  | [], x, _, _ => List.nodup_cons.mpr ⟨List.not_mem_nil x, List.nodup_nil⟩
  | a :: l, x, hnd, hx => by
    rw [List.cons_append, List.nodup_cons]
    rw [List.nodup_cons] at hnd
    refine ⟨?_, booze_nodup_append_singleton l x hnd.2
      (fun h => hx (List.mem_cons_of_mem _ h))⟩
    intro hmem
    rcases List.mem_append.mp hmem with h | h
    · exact hnd.1 h
    · have hax : a = x := by simpa using h
      exact hx (hax ▸ List.mem_cons_self a l)

/-- A `find?` miss means a zero `countP`. -/
theorem booze_countP_zero_of_find?_none {α : Type} (p : α → Bool) (l : List α)
    (h : l.find? p = none) : l.countP p = 0 :=
  List.countP_eq_zero.mpr (List.find?_eq_none.mp h)

/-- A `find?` hit plus an at-most-one bound pins `countP` to one. -/
theorem booze_countP_one_of_find?_some {α : Type} (p : α → Bool) (l : List α) (a : α)
    (h : l.find? p = some a) (hle : l.countP p ≤ 1) : l.countP p = 1 := by
  have h1 : 0 < l.countP p :=
    List.countP_pos_iff.mpr ⟨a, List.mem_of_find?_eq_some h, List.find?_some h⟩
  omega

/-- Reactivating the one (by primary key) inactive row for `(r, u)` in a
table holding no active row for `(r, u)` yields exactly one active row. -/
theorem booze_countP_reactivate (r u now : Nat) :
    ∀ (l : List RoomParticipantRow) (ip : RoomParticipantRow),
      (∀ a ∈ l, roomUserActiveP r u a = false) →
      ip ∈ l → ip.room_id = r → ip.user_id = u →
      (l.map (fun p => p.pid)).Nodup →
      (l.map (fun p => if p.pid == ip.pid then
          { p with is_active := true, left_at := none, joined_at := now }
        else p)).countP (roomUserActiveP r u) = 1
  | c :: l, ip, hall, hip, hr, hu, hnd => by
    rw [List.map_cons, List.nodup_cons] at hnd
    rw [List.map_cons, List.countP_cons]
    by_cases hc : (c.pid == ip.pid) = true
    · have hcpid : c.pid = ip.pid := by simpa using hc
      have hceq : c = ip := by
        rcases List.mem_cons.mp hip with h | h
        · exact h.symm
        · exact absurd (List.mem_map.mpr ⟨ip, h, hcpid.symm⟩) hnd.1
      have htail : l.map (fun p => if p.pid == ip.pid then
          { p with is_active := true, left_at := none, joined_at := now }
        else p) = l := by
        refine booze_map_id _ l (fun a ha => ?_)
        have hane : a.pid ≠ ip.pid := by
          intro he
          exact hnd.1 (List.mem_map.mpr ⟨a, ha, by rw [he, ← hcpid]⟩)
        simp [hane]
      have hzero : l.countP (roomUserActiveP r u) = 0 :=
        List.countP_eq_zero.mpr (fun a ha => by
          simp [hall a (List.mem_cons_of_mem _ ha)])
      have hhead : roomUserActiveP r u
          { c with is_active := true, left_at := none, joined_at := now } = true := by
        simp [roomUserActiveP, hceq, hr, hu]
      rw [htail, hzero, if_pos hc, hhead]
      simp
    · have hcne : c.pid ≠ ip.pid := by simpa using hc
      have hipl : ip ∈ l := by
        rcases List.mem_cons.mp hip with h | h
        · exact absurd (by rw [h]) hcne
        · exact h
      have hchead : roomUserActiveP r u c = false := hall c (List.mem_cons_self c l)
      have hcfalse : (c.pid == ip.pid) = false := by simpa using hcne
      have ih := booze_countP_reactivate r u now l ip
        (fun a ha => hall a (List.mem_cons_of_mem _ ha)) hipl hr hu hnd.2
      rw [if_neg hc, hchead, ih]
      simp

/-- Inserting the fresh active row into a table holding no active row for
`(r, u)` yields exactly one active row. -/
theorem booze_countP_insert (r u nid now : Nat) (l : List RoomParticipantRow)
    (h : ∀ a ∈ l, roomUserActiveP r u a = false) :
    (l ++ [(⟨nid, r, u, now, none, true⟩ : RoomParticipantRow)]).countP
      (roomUserActiveP r u) = 1 := by
  rw [List.countP_append, List.countP_eq_zero.mpr (fun a ha => by simp [h a ha])]
  simp [List.countP_cons, roomUserActiveP]

/-- One `joinRoom` call against an existing unlocked room, starting from a
table with sound primary keys and at most one active row for `(r, u)`:
the call resolves, leaves exactly one active row for `(r, u)`, touches
neither `users` nor `rooms`, and either keeps the primary-key list or
appends the fresh key. -/
theorem joinRoom_unlocked_spec (db : DB) (u r nid now : Nat) (room : RoomRow)
    (hroom : findRoom db r = some room) (hopen : room.is_locked = false)
    (hnd : (db.room_participants.map (fun p => p.pid)).Nodup)
    (hinv : activeRowCount db r u ≤ 1) :
    ∃ db1, joinRoom db u r nid now = .ok (⟨r, u, now⟩, db1) ∧
      activeRowCount db1 r u = 1 ∧
      db1.users = db.users ∧ db1.rooms = db.rooms ∧
      (db1.room_participants.map (fun p => p.pid) =
         db.room_participants.map (fun p => p.pid) ∨
       db1.room_participants.map (fun p => p.pid) =
         db.room_participants.map (fun p => p.pid) ++ [nid]) := by
  cases hap : findActiveParticipant db r u with
  | some q =>
    refine ⟨db, ?_, ?_, rfl, rfl, Or.inl rfl⟩
    · simp only [joinRoom, hroom, hopen, Bool.false_eq_true, if_false, hap]
    · exact booze_countP_one_of_find?_some (roomUserActiveP r u) _ q hap hinv
  | none =>
    have hap' : db.room_participants.find? (roomUserActiveP r u) = none := hap
    have hall : ∀ a ∈ db.room_participants, roomUserActiveP r u a = false :=
      fun a ha => by simpa using List.find?_eq_none.mp hap' a ha
    cases hip : findInactiveParticipant db r u with
    | some ip =>
      have hpred := List.find?_some hip
      simp only [Bool.and_eq_true, beq_iff_eq, Bool.not_eq_true'] at hpred
      refine ⟨{ db with room_participants :=
          db.room_participants.map (fun p => if p.pid == ip.pid then
            { p with is_active := true, left_at := none, joined_at := now }
          else p) }, ?_, ?_, rfl, rfl, ?_⟩
      · simp only [joinRoom, hroom, hopen, Bool.false_eq_true, if_false, hap, hip]
      · exact booze_countP_reactivate r u now db.room_participants ip hall
          (List.mem_of_find?_eq_some hip) hpred.1.1 hpred.1.2 hnd
      · exact Or.inl (booze_map_map_congr _ _ db.room_participants (fun a _ => by
          by_cases h : (a.pid == ip.pid) = true <;> simp [h]))
    | none =>
      refine ⟨{ db with room_participants :=
          db.room_participants ++ [⟨nid, r, u, now, none, true⟩] }, ?_, ?_, rfl, rfl, ?_⟩
      · simp only [joinRoom, hroom, hopen, Bool.false_eq_true, if_false, hap, hip]
      · exact booze_countP_insert r u nid now db.room_participants hall
      · exact Or.inr (by rw [List.map_append]; rfl)

/-- The fresh participant key is not already in the table. -/
theorem booze_freshPid_not_mem (db : DB) :
    freshPid db ∉ db.room_participants.map (fun p => p.pid) := by
  intro h
  have hle := booze_le_foldr_max (db.room_participants.map (fun p => p.pid)) _ h
  simp only [freshPid] at hle
  omega

/-- Iterating `joinRoom` keeps exactly one active row for `(r, u)` from the
first call on, and never touches `users` or `rooms`. -/
theorem joinRoomIter_spec (u r now : Nat) :
    ∀ (n : Nat) (db : DB) (room : RoomRow),
      findRoom db r = some room → room.is_locked = false →
      (db.room_participants.map (fun p => p.pid)).Nodup →
      activeRowCount db r u ≤ 1 →
      activeRowCount (joinRoomIter u r now (n + 1) db) r u = 1 ∧
      (joinRoomIter u r now (n + 1) db).users = db.users ∧
      (joinRoomIter u r now (n + 1) db).rooms = db.rooms
  | 0, db, room, hroom, hopen, hnd, hinv => by
    rcases joinRoom_unlocked_spec db u r (freshPid db) now room hroom hopen hnd hinv with
      ⟨db1, hok, hcount, hus, hrm, _⟩
    have hred : joinRoomIter u r now 1 db = db1 := by
      simp [joinRoomIter, hok]
    rw [hred]
    exact ⟨hcount, hus, hrm⟩
  | n + 1, db, room, hroom, hopen, hnd, hinv => by
    rcases joinRoom_unlocked_spec db u r (freshPid db) now room hroom hopen hnd hinv with
      ⟨db1, hok, hcount, hus, hrm, hpids⟩
    have hroom1 : findRoom db1 r = some room := by
      show db1.rooms.find? _ = _
      rw [hrm]
      exact hroom
    have hnd1 : (db1.room_participants.map (fun p => p.pid)).Nodup := by
      rcases hpids with h | h
      · rw [h]; exact hnd
      · rw [h]
        exact booze_nodup_append_singleton _ _ hnd (booze_freshPid_not_mem db)
    have hred : joinRoomIter u r now (n + 1 + 1) db = joinRoomIter u r now (n + 1) db1 := by
      simp [joinRoomIter, hok]
    rcases joinRoomIter_spec u r now n db1 room hroom1 hopen hnd1 (le_of_eq hcount) with
      ⟨hc, hu2, hr2⟩
    rw [hred]
    exact ⟨hc, hu2.trans hus, hr2.trans hrm⟩

/-- Each active row of `(r, ·)` whose user exists contributes its one view
entry: the view count for `u` equals the active-row count when user `u`
exists. -/
theorem booze_view_count (users : List UserRow) (r u : Nat)
    (hu : (users.find? (fun x => x.uid == u)).isSome) :
    ∀ (l : List RoomParticipantRow),
      (((l.filter (fun p => p.room_id == r && p.is_active)).filterMap (fun p =>
        (users.find? (fun x => x.uid == p.user_id)).map (fun usr =>
          (⟨p.user_id, usr.username, p.joined_at⟩ : ParticipantView)))).filter
        (fun pv => pv.uid == u)).length = l.countP (roomUserActiveP r u)
  | [] => by simp
  | p :: l => by
    have ih := booze_view_count users r u hu l
    cases h1 : (p.room_id == r) with
    | false => simp [List.filter_cons, h1, List.countP_cons, roomUserActiveP, ih]
    | true =>
      cases h2 : p.is_active with
      | false => simp [List.filter_cons, h1, h2, List.countP_cons, roomUserActiveP, ih]
      | true =>
        cases h3 : (p.user_id == u) with
        | false =>
          cases hf : users.find? (fun x => x.uid == p.user_id) with
          | none => simp [List.filter_cons, List.filterMap_cons, h1, h2, h3, hf,
              List.countP_cons, roomUserActiveP, ih]
          | some usr => simp [List.filter_cons, List.filterMap_cons, h1, h2, h3, hf,
              List.countP_cons, roomUserActiveP, ih]
        | true =>
          have hpu : p.user_id = u := by simpa using h3
          rcases Option.isSome_iff_exists.mp hu with ⟨usr, husr⟩
          have hf : users.find? (fun x => x.uid == p.user_id) = some usr := by
            rw [hpu]; exact husr
          simp [List.filter_cons, List.filterMap_cons, h1, h2, h3, hf,
            List.countP_cons, roomUserActiveP, ih]

/-- C1 (amended): against an existing UNLOCKED room, `joinRoom` with an
active row present succeeds without touching the state at all, and after
any positive number of consecutive `joinRoom(U,R)` calls exactly one
`RoomParticipant` row for `(R,U)` is active and `getRoomDetails(R)` lists U
exactly once.  (For a locked room the accepted-request gate precedes the
idempotence check, see the counterexample.) -/
theorem joinRoom_idempotent_amended (db : DB) (u r now n : Nat) (room : RoomRow)
    (hroom : findRoom db r = some room)
    (hopen : room.is_locked = false)
    (hnd : (db.room_participants.map (fun p => p.pid)).Nodup)
    (hinv : activeRowCount db r u ≤ 1)
    (hu : (db.users.find? (fun x => x.uid == u)).isSome) :
    (∀ q nid, findActiveParticipant db r u = some q →
      joinRoom db u r nid now = .ok (⟨r, u, now⟩, db)) ∧
    activeRowCount (joinRoomIter u r now (n + 1) db) r u = 1 ∧
    (∀ d, getRoomDetails (joinRoomIter u r now (n + 1) db) r = .ok d →
      participantViewCount d u = 1) := by
  rcases joinRoomIter_spec u r now n db room hroom hopen hnd hinv with ⟨hcount, hus, hrm⟩
  refine ⟨?_, hcount, ?_⟩
  · intro q nid hq
    simp only [joinRoom, hroom, hopen, Bool.false_eq_true, if_false, hq]
  · intro d hd
    have hroomN : findRoom (joinRoomIter u r now (n + 1) db) r = some room := by
      show (joinRoomIter u r now (n + 1) db).rooms.find? _ = _
      rw [hrm]
      exact hroom
    have huN : ((joinRoomIter u r now (n + 1) db).users.find?
        (fun x => x.uid == u)).isSome := by
      rw [hus]
      exact hu
    simp only [getRoomDetails, hroomN] at hd
    cases hh : (joinRoomIter u r now (n + 1) db).users.find?
        (fun x => x.uid == room.host_id) with
    | none => rw [hh] at hd; cases hd
    | some host =>
      rw [hh] at hd
      have hdparts := congrArg RoomDetails.participants (Except.ok.inj hd)
      have hv : participantViewCount d u =
          (joinRoomIter u r now (n + 1) db).room_participants.countP
            (roomUserActiveP r u) := by
        show (d.participants.filter (fun pv => pv.uid == u)).length = _
        rw [← hdparts]
        exact booze_view_count _ r u huN _
      rw [hv]
      exact hcount

/-- C1 witness: three consecutive joins by user 20 into the unlocked room 1
of `exDBopen` (where 20 already has an active row). -/
theorem joinRoom_idempotent_amended_witness :
    (∀ q nid, findActiveParticipant exDBopen 1 20 = some q →
      joinRoom exDBopen 20 1 nid 5 = .ok (⟨1, 20, 5⟩, exDBopen)) ∧
    activeRowCount (joinRoomIter 20 1 5 3 exDBopen) 1 20 = 1 ∧
    (∀ d, getRoomDetails (joinRoomIter 20 1 5 3 exDBopen) 1 = .ok d →
      participantViewCount d 20 = 1) :=
  joinRoom_idempotent_amended exDBopen 20 1 5 2 ⟨1, "game-night", "public", false, 10⟩
    rfl rfl (by decide) (by decide) rfl

/-! ### C3: joinGameSession capacity machinery -/

/-- `getGameSession` resolves whenever the session row and its game row are
found. -/
theorem getGameSession_ok (db : DB) (sid : Nat) (session : GameSessionRow) (game : GameRow)
    (hsess : db.game_sessions.find? (fun s => s.sid == sid) = some session)
    (hgame : db.games.find? (fun g => g.gid == session.game_id) = some game) :
    ∃ v, getGameSession db sid = .ok v := by
  cases hv : getGameSession db sid with
  | ok v => exact ⟨v, rfl⟩
  | error e =>
    simp only [getGameSession, hsess, hgame] at hv
    exact Except.noConfusion hv

/-- A caller already holding a non-left participant row gets the current
session view back and the state is untouched. -/
theorem joinGameSession_idem (db : DB) (sid u nid now : Nat)
    (session : GameSessionRow) (game : GameRow)
    (hsess : db.game_sessions.find? (fun s => s.sid == sid) = some session)
    (hgame : db.games.find? (fun g => g.gid == session.game_id) = some game)
    (hstatus : session.status = "active")
    (hroom : (findActiveParticipant db session.room_id u).isSome)
    (hin : (findOpenGameParticipant db sid u).isSome) :
    ∃ v, joinGameSession db sid u nid now = .ok (v, db) := by
  have hb : (session.status == "active") = true := by simp [hstatus]
  rcases Option.isSome_iff_exists.mp hroom with ⟨rp, hrp⟩
  rcases Option.isSome_iff_exists.mp hin with ⟨gp, hgp⟩
  rcases getGameSession_ok db sid session game hsess hgame with ⟨v, hv⟩
  exact ⟨v, by simp only [joinGameSession, hsess, hgame, hb, if_true, hrp, hgp, hv]⟩

/-- Below capacity, a caller with no open row is inserted. -/
theorem joinGameSession_insert (db : DB) (sid u nid now : Nat)
    (session : GameSessionRow) (game : GameRow)
    (hsess : db.game_sessions.find? (fun s => s.sid == sid) = some session)
    (hgame : db.games.find? (fun g => g.gid == session.game_id) = some game)
    (hstatus : session.status = "active")
    (hroom : (findActiveParticipant db session.room_id u).isSome)
    (hnotin : findOpenGameParticipant db sid u = none)
    (hcap : nonLeftCount db sid < game.max_players) :
    ∃ v, joinGameSession db sid u nid now = .ok (v,
      { db with game_participants :=
        db.game_participants ++ [(⟨nid, sid, u, 0, now, none⟩ : GameParticipantRow)] }) := by
  have hb : (session.status == "active") = true := by simp [hstatus]
  rcases Option.isSome_iff_exists.mp hroom with ⟨rp, hrp⟩
  have hcap' : ¬(game.max_players ≤ nonLeftCount db sid) := Nat.not_le.mpr hcap
  rcases getGameSession_ok { db with game_participants :=
      db.game_participants ++ [(⟨nid, sid, u, 0, now, none⟩ : GameParticipantRow)] }
    sid session game hsess hgame with ⟨v, hv⟩
  refine ⟨v, ?_⟩
  simp only [joinGameSession, hsess, hgame, hb, if_true, hrp, hnotin]
  rw [if_neg hcap']
  simp only [hv]

/-- At capacity, a caller with no open row is rejected with
"Game is full". -/
theorem joinGameSession_full_err (db : DB) (sid u nid now : Nat)
    (session : GameSessionRow) (game : GameRow)
    (hsess : db.game_sessions.find? (fun s => s.sid == sid) = some session)
    (hgame : db.games.find? (fun g => g.gid == session.game_id) = some game)
    (hstatus : session.status = "active")
    (hroom : (findActiveParticipant db session.room_id u).isSome)
    (hnotin : findOpenGameParticipant db sid u = none)
    (hcap : game.max_players ≤ nonLeftCount db sid) :
    joinGameSession db sid u nid now = .error ⟨"Game is full", 400⟩ := by
  have hb : (session.status == "active") = true := by simp [hstatus]
  rcases Option.isSome_iff_exists.mp hroom with ⟨rp, hrp⟩
  simp only [joinGameSession, hsess, hgame, hb, if_true, hrp, hnotin]
  rw [if_pos hcap]

/-- Distinct users not yet in the session, all active in the room, join one
after another below capacity: every call resolves, the non-left count grows
by one per call, and nothing the later calls read changes. -/
theorem joinGameSeq_all_ok (sid now : Nat) (session : GameSessionRow) (game : GameRow)
    (hstatus : session.status = "active") :
    ∀ (us : List Nat) (db : DB),
      db.game_sessions.find? (fun s => s.sid == sid) = some session →
      db.games.find? (fun g => g.gid == session.game_id) = some game →
      (∀ u ∈ us, (findActiveParticipant db session.room_id u).isSome) →
      (∀ u ∈ us, findOpenGameParticipant db sid u = none) →
      us.Nodup →
      nonLeftCount db sid + us.length ≤ game.max_players →
      ∃ db1, joinGameSeq sid now us db = (List.replicate us.length none, db1) ∧
        nonLeftCount db1 sid = nonLeftCount db sid + us.length ∧
        db1.game_sessions = db.game_sessions ∧
        db1.games = db.games ∧
        db1.room_participants = db.room_participants ∧
        (∀ u2 ∈ us, (findOpenGameParticipant db1 sid u2).isSome) ∧
        (∀ w, w ∉ us → findOpenGameParticipant db1 sid w = findOpenGameParticipant db sid w)
  | [], db, _hsess, _hgame, _hroom, _hnotin, _hnd, _hcap =>
    ⟨db, rfl, by simp, rfl, rfl, rfl, fun _ h => absurd h (List.not_mem_nil _), fun _ _ => rfl⟩
  | uu :: us, db, hsess, hgame, hroomAll, hnotinAll, hnd, hcap => by
    have hcap1 : nonLeftCount db sid < game.max_players := by
      rw [List.length_cons] at hcap
      omega
    rcases joinGameSession_insert db sid uu (freshGpId db) now session game hsess hgame
      hstatus (hroomAll uu (List.mem_cons_self uu us))
      (hnotinAll uu (List.mem_cons_self uu us)) hcap1 with ⟨v, hok⟩
    have hcount' : nonLeftCount { db with game_participants := db.game_participants ++
        [(⟨freshGpId db, sid, uu, 0, now, none⟩ : GameParticipantRow)] } sid =
        nonLeftCount db sid + 1 := by
      show (db.game_participants ++ _).countP _ = _
      rw [List.countP_append]
      simp [List.countP_cons]
      rfl
    have hfind' : ∀ w, w ≠ uu →
        findOpenGameParticipant { db with game_participants := db.game_participants ++
          [(⟨freshGpId db, sid, uu, 0, now, none⟩ : GameParticipantRow)] } sid w =
        findOpenGameParticipant db sid w := by
      intro w hw
      show (db.game_participants ++ _).find? _ = _
      rw [List.find?_append]
      have hone : ([(⟨freshGpId db, sid, uu, 0, now, none⟩ : GameParticipantRow)]).find?
          (fun p => p.game_session_id == sid && p.user_id == w && p.left_at == none) =
          none := by
        have : (uu == w) = false := beq_eq_false_iff_ne.mpr (Ne.symm hw)
        simp [List.find?_cons, this]
      rw [hone, Option.or_none]
      rfl
    have hndtail := List.nodup_cons.mp hnd
    have hopen_uu : findOpenGameParticipant { db with game_participants := db.game_participants ++
        [(⟨freshGpId db, sid, uu, 0, now, none⟩ : GameParticipantRow)] } sid uu =
        some (⟨freshGpId db, sid, uu, 0, now, none⟩ : GameParticipantRow) := by
      have h0 : db.game_participants.find?
          (fun p => p.game_session_id == sid && p.user_id == uu && p.left_at == none) =
          none := hnotinAll uu (List.mem_cons_self uu us)
      show (db.game_participants ++ _).find? _ = _
      rw [List.find?_append, h0]
      simp [List.find?_cons]
    have hnotinAll' : ∀ u2 ∈ us,
        findOpenGameParticipant { db with game_participants := db.game_participants ++
          [(⟨freshGpId db, sid, uu, 0, now, none⟩ : GameParticipantRow)] } sid u2 = none := by
      intro u2 hu2
      rw [hfind' u2 (fun he => hndtail.1 (he ▸ hu2))]
      exact hnotinAll u2 (List.mem_cons_of_mem _ hu2)
    have hcap' : nonLeftCount { db with game_participants := db.game_participants ++
        [(⟨freshGpId db, sid, uu, 0, now, none⟩ : GameParticipantRow)] } sid + us.length ≤
        game.max_players := by
      rw [hcount', List.length_cons] at *
      omega
    rcases joinGameSeq_all_ok sid now session game hstatus us
      { db with game_participants := db.game_participants ++
        [(⟨freshGpId db, sid, uu, 0, now, none⟩ : GameParticipantRow)] }
      hsess hgame (fun u2 hu2 => hroomAll u2 (List.mem_cons_of_mem _ hu2))
      hnotinAll' hndtail.2 hcap' with ⟨db1, hseq, hc1, hs1, hg1, hr1, hopens1, hf1⟩
    refine ⟨db1, ?_, ?_, hs1, hg1, hr1, ?_, ?_⟩
    · simp only [joinGameSeq, hok, hseq, List.length_cons, List.replicate_succ]
    · rw [hc1, hcount', List.length_cons]
      omega
    · intro u2 hu2
      rcases List.mem_cons.mp hu2 with h | h
      · rw [h, hf1 uu hndtail.1, hopen_uu]
        rfl
      · exact hopens1 u2 h
    · intro w hw
      rw [hf1 w (fun h => hw (List.mem_cons_of_mem _ h)),
        hfind' w (fun he => hw (by rw [he]; exact List.mem_cons_self uu us))]

/-- C3: for an active session of a game with `max_players = N` and users
who are active room participants, the first N joins by distinct fresh users
all resolve (each inserting a row), so that afterwards each of the N users
holds a non-left `GameParticipant` row and a repeat `joinGameSession` call
by any of them is an idempotent success that leaves the state untouched,
while the (N+1)-th distinct user is rejected with "Game is full". -/
theorem joinGameSession_capacity (db : DB) (sid now : Nat)
    (session : GameSessionRow) (game : GameRow) (us : List Nat) (v : Nat)
    (hsess : db.game_sessions.find? (fun s => s.sid == sid) = some session)
    (hgame : db.games.find? (fun g => g.gid == session.game_id) = some game)
    (hstatus : session.status = "active")
    (hroomAll : ∀ u ∈ us ++ [v], (findActiveParticipant db session.room_id u).isSome)
    (hnotinAll : ∀ u ∈ us ++ [v], findOpenGameParticipant db sid u = none)
    (hnd : (us ++ [v]).Nodup)
    (hlen : us.length = game.max_players)
    (hempty : nonLeftCount db sid = 0) :
    ∃ db1, joinGameSeq sid now us db = (List.replicate us.length none, db1) ∧
      nonLeftCount db1 sid = game.max_players ∧
      (∀ u2 ∈ us, (findOpenGameParticipant db1 sid u2).isSome) ∧
      (∀ u2 ∈ us, ∀ nid, ∃ view, joinGameSession db1 sid u2 nid now = .ok (view, db1)) ∧
      (∀ nid, joinGameSession db1 sid v nid now = .error ⟨"Game is full", 400⟩) := by
  have hndApp := List.nodup_append.mp hnd
  have hvnot : v ∉ us := fun hv => (hndApp.2.2 hv) (List.mem_singleton.mpr rfl)
  rcases joinGameSeq_all_ok sid now session game hstatus us db hsess hgame
    (fun u2 hu2 => hroomAll u2 (List.mem_append_left _ hu2))
    (fun u2 hu2 => hnotinAll u2 (List.mem_append_left _ hu2))
    hndApp.1 (by omega) with ⟨db1, hseq, hc1, hs1, hg1, hr1, hopens1, hf1⟩
  have hsess1 : db1.game_sessions.find? (fun s => s.sid == sid) = some session := by
    show db1.game_sessions.find? _ = _
    rw [hs1]
    exact hsess
  have hgame1 : db1.games.find? (fun g => g.gid == session.game_id) = some game := by
    show db1.games.find? _ = _
    rw [hg1]
    exact hgame
  refine ⟨db1, hseq, by omega, hopens1, ?_, ?_⟩
  · intro u2 hu2 nid
    have hroomw : (findActiveParticipant db1 session.room_id u2).isSome := by
      show (db1.room_participants.find? _).isSome = true
      rw [hr1]
      exact hroomAll u2 (List.mem_append_left _ hu2)
    exact joinGameSession_idem db1 sid u2 nid now session game hsess1 hgame1 hstatus
      hroomw (hopens1 u2 hu2)
  · intro nid
    have hroom1 : (findActiveParticipant db1 session.room_id v).isSome := by
      show (db1.room_participants.find? _).isSome = true
      rw [hr1]
      exact hroomAll v (List.mem_append_right _ (List.mem_singleton.mpr rfl))
    have hnotin1 : findOpenGameParticipant db1 sid v = none := by
      rw [hf1 v hvnot]
      exact hnotinAll v (List.mem_append_right _ (List.mem_singleton.mpr rfl))
    exact joinGameSession_full_err db1 sid v nid now session game hsess1 hgame1
      hstatus hroom1 hnotin1 (by omega)

/-- C3 witness: the 2-player game 2 in `exDBgame`; users 20 and 30 fill
session 5, each then holds a non-left row and a repeat join by either is an
idempotent success, and user 40 is rejected with "Game is full". -/
theorem joinGameSession_capacity_witness :
    ∃ db1, joinGameSeq 5 7 [20, 30] exDBgame = (List.replicate 2 none, db1) ∧
      nonLeftCount db1 5 = 2 ∧
      (∀ u2 ∈ ([20, 30] : List Nat), (findOpenGameParticipant db1 5 u2).isSome) ∧
      (∀ u2 ∈ ([20, 30] : List Nat), ∀ nid,
        ∃ view, joinGameSession db1 5 u2 nid 7 = .ok (view, db1)) ∧
      (∀ nid, joinGameSession db1 5 40 nid 7 = .error ⟨"Game is full", 400⟩) :=
  joinGameSession_capacity exDBgame 5 7 ⟨5, 2, 1, "active", 1, none, 20⟩
    ⟨2, "pong", 2, 2⟩ [20, 30] 40 rfl rfl rfl (by decide) (by decide) (by decide)
    rfl rfl

/-! ### C4: no active session is ever left empty -/

/-- Rows of a different session keep their open/closed status when the one
row with the given primary key is marked left. -/
theorem booze_count_markLeft_by_pid (now t : Nat) (part : GameParticipantRow)
    (l : List GameParticipantRow) (hnd : (l.map (fun p => p.gpid)).Nodup)
    (hmem : part ∈ l) (hne : part.game_session_id ≠ t) :
    (l.map (fun p => if p.gpid == part.gpid then
        { p with left_at := some now } else p)).countP
      (fun p => p.game_session_id == t && p.left_at == none) =
    l.countP (fun p => p.game_session_id == t && p.left_at == none) := by
  refine booze_countP_map_inv _ _ l (fun a ha => ?_)
  by_cases h : (a.gpid == part.gpid) = true
  · have ha2 : a = part :=
      booze_key_inj (fun p => p.gpid) l hnd a part ha hmem (by simpa using h)
    rw [ha2]
    have hbt : (part.game_session_id == t) = false := beq_eq_false_iff_ne.mpr hne
    simp [hbt]
  · simp [h]

/-- Rows of a different session keep their open/closed status when every
open row of session `sid` is marked left. -/
theorem booze_count_markLeft_session (now sid t : Nat) (hne : sid ≠ t)
    (l : List GameParticipantRow) :
    (l.map (fun p => if p.game_session_id == sid && p.left_at == none then
        { p with left_at := some now } else p)).countP
      (fun p => p.game_session_id == t && p.left_at == none) =
    l.countP (fun p => p.game_session_id == t && p.left_at == none) := by
  refine booze_countP_map_inv _ _ l (fun a _ha => ?_)
  by_cases h : (a.game_session_id == sid && a.left_at == none) = true
  · have h1 : a.game_session_id = sid := by
      have h2 := (Bool.and_eq_true _ _).mp h
      simpa using h2.1
    have hbt : (a.game_session_id == t) = false := by
      rw [h1]
      exact beq_eq_false_iff_ne.mpr hne
    simp [h, hbt]
  · simp [h]

/-- Score rewrites do not affect open-row counting. -/
theorem booze_count_score_update (ns : Int) (k t : Nat) (l : List GameParticipantRow) :
    (l.map (fun p => if p.gpid == k then { p with score := ns } else p)).countP
      (fun p => p.game_session_id == t && p.left_at == none) =
    l.countP (fun p => p.game_session_id == t && p.left_at == none) := by
  refine booze_countP_map_inv _ _ l (fun a _ha => ?_)
  by_cases h : (a.gpid == k) = true <;> simp [h]

/-- A prefix never counts more than the whole. -/
theorem booze_countP_le_append {α : Type} (p : α → Bool) (l1 l2 : List α) :
    l1.countP p ≤ (l1 ++ l2).countP p := by
  rw [List.countP_append]
  omega

/-- C4: `leaveGameSession` auto-completes a drained active session (with
`ended-at` stamped), and the session invariant "no `active` session row
with zero non-left participants" is preserved by `leaveGameSession`,
`endGameSession`, `joinGameSession`, `createGameSession` and
`updatePlayerScore` — no operation leaves an active session empty. -/
theorem leaveGameSession_autocompletes (db : DB) (sid u now : Nat)
    (hgp : (db.game_participants.map (fun p => p.gpid)).Nodup)
    (hgs : (db.game_sessions.map (fun s => s.sid)).Nodup)
    (hinv : noEmptyActiveSession db) :
    (∀ session db2, db.game_sessions.find? (fun s => s.sid == sid) = some session →
      session.status = "active" →
      leaveGameSession db sid u now = .ok (true, db2) →
      nonLeftCount db2 sid = 0 →
      ∀ s ∈ db2.game_sessions, s.sid = sid →
        s.status = "completed" ∧ s.ended_at = some now) ∧
    (∀ res db2, leaveGameSession db sid u now = .ok (res, db2) →
      noEmptyActiveSession db2) ∧
    (∀ res db2, endGameSession db sid u now = .ok (res, db2) →
      noEmptyActiveSession db2) ∧
    (∀ nid v2 db2, joinGameSession db sid u nid now = .ok (v2, db2) →
      noEmptyActiveSession db2) ∧
    (∀ g rm cb gpId v2 db2, createGameSession db g rm cb sid gpId now = .ok (v2, db2) →
      noEmptyActiveSession db2) ∧
    (∀ d res db2, updatePlayerScore db sid u d = .ok (res, db2) →
      noEmptyActiveSession db2) := by
  refine ⟨?_, ?_, ?_, ?_, ?_, ?_⟩
  · intro session db2 hsess hstatus hok hzero
    cases hfo : findOpenGameParticipant db sid u with
    | none =>
      simp only [leaveGameSession, hsess, hfo] at hok
      injection hok with hpair
      injection hpair with h1 h2
      exact absurd h1 (by decide)
    | some part =>
      simp only [leaveGameSession, hsess, hfo] at hok
      injection hok with hpair
      injection hpair with h1 h2
      subst h2
      by_cases hcond : (nonLeftCount { db with game_participants := db.game_participants.map (fun p =>
          if p.gpid == part.gpid then { p with left_at := some now } else p) }
          sid == 0 && session.status == "active") = true
      · rw [if_pos hcond] at hzero ⊢
        intro s hs hsid
        have hs' : s ∈ db.game_sessions.map (fun s0 =>
            if s0.sid == sid then { s0 with status := "completed", ended_at := some now }
            else s0) := hs
        rcases List.mem_map.mp hs' with ⟨s0, _hs0, rfl⟩
        by_cases h0 : (s0.sid == sid) = true
        · simp [h0]
        · exact absurd (by simpa [h0] using hsid) (by simpa using h0)
      · rw [if_neg hcond] at hzero
        exfalso
        apply hcond
        rw [hzero]
        simp [hstatus]
  · intro res db2 hok
    cases hfs : db.game_sessions.find? (fun s => s.sid == sid) with
    | none => simp only [leaveGameSession, hfs] at hok; exact Except.noConfusion hok
    | some session =>
      cases hfo : findOpenGameParticipant db sid u with
      | none =>
        simp only [leaveGameSession, hfs, hfo] at hok
        injection hok with hpair
        injection hpair with h1 h2
        rw [← h2]
        exact hinv
      | some part =>
        simp only [leaveGameSession, hfs, hfo] at hok
        injection hok with hpair
        injection hpair with h1 h2
        subst h2
        have hpf := List.find?_some hfo
        simp only [Bool.and_eq_true, beq_iff_eq] at hpf
        have hpmem := List.mem_of_find?_eq_some hfo
        have hsessmem := List.mem_of_find?_eq_some hfs
        have hsessid : session.sid = sid := by simpa using List.find?_some hfs
        by_cases hcond : (nonLeftCount { db with game_participants := db.game_participants.map (fun p =>
            if p.gpid == part.gpid then { p with left_at := some now } else p) }
            sid == 0 && session.status == "active") = true
        · rw [if_pos hcond]
          intro s hs hstat
          have hs' : s ∈ db.game_sessions.map (fun s0 =>
              if s0.sid == sid then
                { s0 with status := "completed", ended_at := some now }
              else s0) := hs
          rcases List.mem_map.mp hs' with ⟨s0, hs0, rfl⟩
          by_cases h0 : (s0.sid == sid) = true
          · simp [h0] at hstat
          · simp only [h0, Bool.false_eq_true, if_false] at hstat ⊢
            have h0ne : s0.sid ≠ sid := by simpa using h0
            have hne : part.game_session_id ≠ s0.sid := by
              rw [hpf.1.1]
              exact fun he => h0ne he.symm
            show 1 ≤ (db.game_participants.map (fun p =>
              if p.gpid == part.gpid then { p with left_at := some now } else p)).countP
              (fun p => p.game_session_id == s0.sid && p.left_at == none)
            rw [booze_count_markLeft_by_pid now s0.sid part db.game_participants hgp
              hpmem hne]
            exact hinv s0 hs0 hstat
        · rw [if_neg hcond]
          intro s hs hstat
          have hs' : s ∈ db.game_sessions := hs
          by_cases hts : s.sid = sid
          · have hseq : s = session :=
              booze_key_inj (fun s0 => s0.sid) db.game_sessions hgs s session hs'
                hsessmem (hts.trans hsessid.symm)
            have hstatb : (session.status == "active") = true := by
              rw [← hseq]
              simp [hstat]
            have hA : nonLeftCount { db with game_participants := db.game_participants.map (fun p =>
                if p.gpid == part.gpid then { p with left_at := some now } else p) }
                sid ≠ 0 := by
              intro h0
              apply hcond
              rw [h0, hstatb]
              rfl
            rw [hts]
            omega
          · show 1 ≤ (db.game_participants.map (fun p =>
              if p.gpid == part.gpid then { p with left_at := some now } else p)).countP
              (fun p => p.game_session_id == s.sid && p.left_at == none)
            rw [booze_count_markLeft_by_pid now s.sid part db.game_participants hgp
              hpmem (by rw [hpf.1.1]; exact fun he => hts he.symm)]
            exact hinv s hs' hstat
  · intro res db2 hok
    cases hfs : db.game_sessions.find? (fun s => s.sid == sid) with
    | none => simp only [endGameSession, hfs] at hok; exact Except.noConfusion hok
    | some session =>
      cases hfr : db.rooms.find? (fun r => r.rid == session.room_id) with
      | none => simp only [endGameSession, hfs, hfr] at hok; exact Except.noConfusion hok
      | some room =>
        by_cases hb : (session.status == "active") = true
        · by_cases hauth : (session.created_by == u || room.host_id == u) = true
          · simp only [endGameSession, hfs, hfr, hb, if_true, hauth] at hok
            injection hok with hpair
            injection hpair with h1 h2
            subst h2
            intro s hs hstat
            have hs' : s ∈ db.game_sessions.map (fun s0 =>
                if s0.sid == sid then
                  { s0 with status := "completed", ended_at := some now }
                else s0) := hs
            rcases List.mem_map.mp hs' with ⟨s0, hs0, rfl⟩
            by_cases h0 : (s0.sid == sid) = true
            · simp [h0] at hstat
            · simp only [h0, Bool.false_eq_true, if_false] at hstat ⊢
              have h0ne : s0.sid ≠ sid := by simpa using h0
              have hne : sid ≠ s0.sid := fun he => h0ne he.symm
              show 1 ≤ (db.game_participants.map (fun p =>
                if p.game_session_id == sid && p.left_at == none then
                  { p with left_at := some now } else p)).countP
                (fun p => p.game_session_id == s0.sid && p.left_at == none)
              rw [booze_count_markLeft_session now sid s0.sid hne db.game_participants]
              exact hinv s0 hs0 hstat
          · simp only [endGameSession, hfs, hfr, hb, if_true] at hok
            rw [if_neg hauth] at hok
            exact Except.noConfusion hok
        · simp only [endGameSession, hfs, hfr] at hok
          rw [if_neg hb] at hok
          exact Except.noConfusion hok
  · intro nid v2 db2 hok
    cases hfs : db.game_sessions.find? (fun s => s.sid == sid) with
    | none => simp only [joinGameSession, hfs] at hok; exact Except.noConfusion hok
    | some session =>
      cases hfg : db.games.find? (fun g => g.gid == session.game_id) with
      | none =>
        simp only [joinGameSession, hfs, hfg] at hok
        exact Except.noConfusion hok
      | some game =>
        by_cases hb : (session.status == "active") = true
        · cases hfr : findActiveParticipant db session.room_id u with
          | none =>
            simp only [joinGameSession, hfs, hfg, hb, if_true, hfr] at hok
            exact Except.noConfusion hok
          | some rp =>
            cases hfo : findOpenGameParticipant db sid u with
            | some gp =>
              simp only [joinGameSession, hfs, hfg, hb, if_true, hfr, hfo] at hok
              cases hv : getGameSession db sid with
              | error e => rw [hv] at hok; exact Except.noConfusion hok
              | ok vv =>
                rw [hv] at hok
                injection hok with hpair
                injection hpair with h1 h2
                rw [← h2]
                exact hinv
            | none =>
              simp only [joinGameSession, hfs, hfg, hb, if_true, hfr, hfo] at hok
              by_cases hcap : game.max_players ≤ nonLeftCount db sid
              · rw [if_pos hcap] at hok
                exact Except.noConfusion hok
              · rw [if_neg hcap] at hok
                cases hv : getGameSession { db with game_participants := db.game_participants ++
                    [(⟨nid, sid, u, 0, now, none⟩ : GameParticipantRow)] } sid with
                | error e => rw [hv] at hok; exact Except.noConfusion hok
                | ok vv =>
                  rw [hv] at hok
                  injection hok with hpair
                  injection hpair with h1 h2
                  subst h2
                  intro s hs hstat
                  have hs' : s ∈ db.game_sessions := hs
                  have hbase := hinv s hs' hstat
                  have hle := booze_countP_le_append
                    (fun p => p.game_session_id == s.sid && p.left_at == none)
                    db.game_participants
                    [(⟨nid, sid, u, 0, now, none⟩ : GameParticipantRow)]
                  show 1 ≤ (db.game_participants ++
                    [(⟨nid, sid, u, 0, now, none⟩ : GameParticipantRow)]).countP
                    (fun p => p.game_session_id == s.sid && p.left_at == none)
                  exact le_trans hbase hle
        · simp only [joinGameSession, hfs, hfg] at hok
          rw [if_neg hb] at hok
          exact Except.noConfusion hok
  · intro g rm cb gpId v2 db2 hok
    cases hfg : db.games.find? (fun g0 => g0.gid == g) with
    | none => simp only [createGameSession, hfg] at hok; exact Except.noConfusion hok
    | some game =>
      cases hfr : findRoom db rm with
      | none =>
        simp only [createGameSession, hfg, hfr] at hok
        exact Except.noConfusion hok
      | some room =>
        cases hfp : findActiveParticipant db rm cb with
        | none =>
          simp only [createGameSession, hfg, hfr, hfp] at hok
          exact Except.noConfusion hok
        | some rp =>
          cases hfa : db.game_sessions.find?
              (fun s => s.room_id == rm && s.game_id == g && s.status == "active") with
          | some other =>
            simp only [createGameSession, hfg, hfr, hfp, hfa] at hok
            exact Except.noConfusion hok
          | none =>
            simp only [createGameSession, hfg, hfr, hfp, hfa] at hok
            cases hv : getGameSession { db with game_sessions := db.game_sessions ++ [(⟨sid, g, rm, "active", now, none, cb⟩ : GameSessionRow)], game_participants := db.game_participants ++ [(⟨gpId, sid, cb, 0, now, none⟩ : GameParticipantRow)] } sid with
            | error e => rw [hv] at hok; exact Except.noConfusion hok
            | ok vv =>
              rw [hv] at hok
              injection hok with hpair
              injection hpair with h1 h2
              subst h2
              intro s hs hstat
              have hs' : s ∈ db.game_sessions ++
                  [(⟨sid, g, rm, "active", now, none, cb⟩ : GameSessionRow)] := hs
              rcases List.mem_append.mp hs' with h | h
              · have hbase := hinv s h hstat
                have hle := booze_countP_le_append
                  (fun p => p.game_session_id == s.sid && p.left_at == none)
                  db.game_participants
                  [(⟨gpId, sid, cb, 0, now, none⟩ : GameParticipantRow)]
                show 1 ≤ (db.game_participants ++
                  [(⟨gpId, sid, cb, 0, now, none⟩ : GameParticipantRow)]).countP
                  (fun p => p.game_session_id == s.sid && p.left_at == none)
                exact le_trans hbase hle
              · have hseq : s = ⟨sid, g, rm, "active", now, none, cb⟩ :=
                  List.mem_singleton.mp h
                show 1 ≤ (db.game_participants ++
                  [(⟨gpId, sid, cb, 0, now, none⟩ : GameParticipantRow)]).countP
                  (fun p => p.game_session_id == s.sid && p.left_at == none)
                rw [List.countP_append, hseq]
                have hone : ([(⟨gpId, sid, cb, 0, now, none⟩ : GameParticipantRow)]).countP
                    (fun p => p.game_session_id ==
                      (⟨sid, g, rm, "active", now, none, cb⟩ : GameSessionRow).sid &&
                      p.left_at == none) = 1 := by
                  simp [List.countP_cons]
                omega
  · intro d res db2 hok
    cases hfs : db.game_sessions.find? (fun s => s.sid == sid && s.status == "active") with
    | none => simp only [updatePlayerScore, hfs] at hok; exact Except.noConfusion hok
    | some session =>
      cases hfo : findOpenGameParticipant db sid u with
      | none =>
        simp only [updatePlayerScore, hfs, hfo] at hok
        exact Except.noConfusion hok
      | some part =>
        simp only [updatePlayerScore, hfs, hfo] at hok
        injection hok with hpair
        injection hpair with h1 h2
        subst h2
        intro s hs hstat
        have hs' : s ∈ db.game_sessions := hs
        show 1 ≤ (db.game_participants.map (fun p =>
          if p.gpid == part.gpid then { p with score := part.score + d } else p)).countP
          (fun p => p.game_session_id == s.sid && p.left_at == none)
        rw [booze_count_score_update (part.score + d) part.gpid s.sid db.game_participants]
        exact hinv s hs' hstat

/-- C4 witness: user 20 leaves session 5 of `exDBoneInGame` (its only open
participant); the session auto-completes with `ended-at = 9` and the
resulting state still satisfies the invariant. -/
theorem leaveGameSession_autocompletes_witness :
    (∀ s ∈ ({ exDBoneInGame with game_participants := [⟨200, 5, 20, 0, 1, some 9⟩], game_sessions := [⟨5, 2, 1, "completed", 1, some 9, 20⟩] } : DB).game_sessions,
      s.sid = 5 → s.status = "completed" ∧ s.ended_at = some 9) ∧
    noEmptyActiveSession ({ exDBoneInGame with game_participants := [⟨200, 5, 20, 0, 1, some 9⟩], game_sessions := [⟨5, 2, 1, "completed", 1, some 9, 20⟩] } : DB) := by
  have h := leaveGameSession_autocompletes exDBoneInGame 5 20 9 (by decide) (by decide)
    (by unfold noEmptyActiveSession; decide)
  exact ⟨h.1 ⟨5, 2, 1, "active", 1, none, 20⟩ _ rfl rfl rfl rfl, h.2.1 true _ rfl⟩

end Booze
